import Mathlib

/-!
# Tomasulo pipeline stages of `tomasulo.c`

A shallow embedding of the stage operations `CDB_To_retire`, `execute_To_CDB`,
`issue_To_execute`, `dispatch_To_issue` and `fetch_To_dispatch`, of the
termination test `is_simulation_done` and of the driver `runTomasulo` of
`src/tomasulo.c`, followed by theorems about them.

Modelling conventions.

* An `instruction_t*` is an `Option Ptr`: `none` is `NULL`, `some a` is the
  address `a` of a record in the instruction store `State.heap`.
* The file-level `static` variables of `tomasulo.c` are the fields of `State`.
* Every stage operation returns `Option State`.  `none` means the C code has
  no defined result on that state: it read a field through `NULL` (or through
  an address that holds no instruction), or indexed an array outside its
  declared size.  `some s` means the operation ran to completion and left the
  pipeline in state `s`.
* `int` values (cycle stamps, program-order indices) are Lean integers.  The
  latency sums `tom_execute_cycle + FU_FP_LATENCY` and `tom_execute_cycle +
  FU_INT_LATENCY` of lines 195 and 208 are formed in 32-bit two's complement
  (`intAdd`), so a stamp close to `INT_MAX` wraps around.  The tests
  `current_cycle >= stamp + 1` of lines 138, 266 and 288 are read as the
  strict comparison `current_cycle > stamp`.
-/

namespace Tomasulo

/-! ## Parameters (`tomasulo.c` lines 26-34) -/

def INSTR_QUEUE_SIZE : Nat := 16

def RESERV_INT_SIZE : Nat := 5

def RESERV_FP_SIZE : Nat := 3

def FU_INT_SIZE : Nat := 3

def FU_FP_SIZE : Nat := 1

def FU_INT_LATENCY : Int := 5

def FU_FP_LATENCY : Int := 7

/-! ## 32-bit `int` arithmetic -/

def INT_MIN : Int := -2147483648

def INT_MAX : Int := 2147483647

/-- The 32-bit two's-complement `int` that a mathematical integer is stored
as: the representative of `z` modulo `2^32` between `INT_MIN` and `INT_MAX`. -/
def wrap32 (z : Int) : Int := (z + 2147483648) % 4294967296 - 2147483648

/-- The sum `a + b` of two `int` operands as lines 195 and 208 form it: in 32
bits, wrapping around on overflow. -/
def intAdd (a b : Int) : Int := wrap32 (a + b)

/-! ## Data model -/

/-- Address of an `instruction_t` record in the instruction store. -/
abbrev Ptr := Nat

/-- Modelled from the spec: the opcode classification of `machine.h`
(`MD_OP_FLAGS` and the `F_*` bits), which is not part of the source tree.
An opcode is represented by the truth values of the seven classification
macros `IS_ICOMP`, `IS_FCOMP`, `IS_LOAD`, `IS_STORE`, `IS_UNCOND_CTRL`,
`IS_COND_CTRL`, `IS_TRAP` (spec section 6: "operation classification flags"). -/
structure md_opcode where
  icomp : Bool
  fcomp : Bool
  load : Bool
  store : Bool
  uncond_ctrl : Bool
  cond_ctrl : Bool
  trap : Bool
deriving DecidableEq, Repr

def IS_ICOMP (op : md_opcode) : Bool := op.icomp

def IS_FCOMP (op : md_opcode) : Bool := op.fcomp

def IS_LOAD (op : md_opcode) : Bool := op.load

def IS_STORE (op : md_opcode) : Bool := op.store

/-- Line 60: `USES_INT_FU(op)`. -/
def USES_INT_FU (op : md_opcode) : Bool := IS_ICOMP op || IS_LOAD op || IS_STORE op

/-- Line 61: `USES_FP_FU(op)`. -/
def USES_FP_FU (op : md_opcode) : Bool := IS_FCOMP op

/-- Line 63: `WRITES_CDB(op)`. -/
def WRITES_CDB (op : md_opcode) : Bool := IS_ICOMP op || IS_LOAD op || IS_FCOMP op

/-- Modelled from the spec: the record `instruction_t` of `instr.h`, which is
not part of the source tree.  The fields are the ones the stage operations
read or write: the program-order index, the opcode, the three source slots
`Q[0..2]` and the cycle stamps. -/
structure instruction_t where
  index : Int
  op : md_opcode
  Q0 : Option Ptr
  Q1 : Option Ptr
  Q2 : Option Ptr
  tom_dispatch_cycle : Int
  tom_issue_cycle : Int
  tom_execute_cycle : Int
  tom_cdb_cycle : Int
deriving DecidableEq, Repr

/-- Read `x.Q[j]` for `j < 3`. -/
def instruction_t.Q (x : instruction_t) (j : Nat) : Option Ptr :=
  match j with
  | 0 => x.Q0
  | 1 => x.Q1
  | _ => x.Q2

/-- Assign `x.Q[j] = v` for `j < 3`. -/
def instruction_t.setQ (x : instruction_t) (j : Nat) (v : Option Ptr) : instruction_t :=
  match j with
  | 0 => { x with Q0 := v }
  | 1 => { x with Q1 := v }
  | _ => { x with Q2 := v }

/-- The global variables of `tomasulo.c` (lines 80-100) together with the
instruction records they point to. -/
structure State where
  heap : List instruction_t
  instr_queue : List (Option Ptr)
  instr_queue_size : Int
  reservINT : List (Option Ptr)
  reservFP : List (Option Ptr)
  fuINT : List (Option Ptr)
  fuFP : List (Option Ptr)
  commonDataBus : Option Ptr
  map_table : List (Option Ptr)
  fetch_index : Int
deriving DecidableEq, Repr

/-! ## Memory access -/

/-- Read `arr[i]` of an array declared with `size` elements.  Reading outside
the declared size has no defined result. -/
def rd (size : Nat) (arr : List (Option Ptr)) (i : Nat) : Option (Option Ptr) :=
  if i < size then arr[i]? else none

/-- Read the record behind a pointer; `NULL` has no record. -/
def deref (heap : List instruction_t) (p : Option Ptr) : Option instruction_t :=
  match p with
  | none => none
  | some a => heap[a]?

/-- The loop `for (i = 0; i < n; i++) body(i)` over an explicit loop state:
runs `body 0`, ..., `body (n-1)` in that order and stops without a result as
soon as one iteration has none. -/
def forLoop {σ : Type} (body : Nat → σ → Option σ) : Nat → σ → Option σ
  | 0, st => some st
  | k + 1, st => (forLoop body k st).bind (body k)

/-! ## `CDB_To_retire` (lines 135-171) -/

/-- Lines 145-149 / 156-160, one iteration of the `j` loop on the record at
address `a`: `if (r->Q[j] == commonDataBus) r->Q[j] = NULL;`. -/
def retireQ (bus : Option Ptr) (a : Ptr) (j : Nat) (heap : List instruction_t) :
    Option (List instruction_t) :=
  match heap[a]? with
  | none => none
  | some x => if x.Q j = bus then some (heap.set a (x.setQ j none)) else some heap

/-- Lines 140-150 and 151-161, body of the loop over a reservation-station
array `rs` declared with `size` slots (`reservFP`, then `reservINT`).  The
loop state is the array and the instruction store; `bus` is `commonDataBus`,
which both loops only read. -/
def retireBody (bus : Option Ptr) (size : Nat) (i : Nat)
    (st : List (Option Ptr) × List instruction_t) :
    Option (List (Option Ptr) × List instruction_t) :=
  match rd size st.1 i with
  | none => none
  | some p =>
    if p = bus then
      some (st.1.set i none, st.2)
    else
      match p with
      | none => none
      | some a => (forLoop (retireQ bus a) 3 st.2).map (fun h => (st.1, h))

/-- Lines 162-166: every map-table entry equal to the bus pointer is cleared.
`MD_TOTAL_REGS` is the length of `map_table`.  The assignment at line 164 is
written without its terminating semicolon; it is read as the assignment
`map_table[i] = NULL;` that it spells. -/
def retireMap (bus : Option Ptr) (m : List (Option Ptr)) : List (Option Ptr) :=
  m.map (fun e => if e = bus then none else e)

/-- The operation `CDB_To_retire(current_cycle)`, lines 135-171. -/
def CDB_To_retire (current_cycle : Int) (s : State) : Option State :=
  match s.commonDataBus with
  | none => some s
  | some b =>
    match s.heap[b]? with
    | none => none
    | some x =>
      if current_cycle ≥ x.tom_cdb_cycle + 1 then
        match forLoop (retireBody (some b) RESERV_FP_SIZE) RESERV_FP_SIZE
            (s.reservFP, s.heap) with
        | none => none
        | some (rfp, h1) =>
          match forLoop (retireBody (some b) RESERV_INT_SIZE) RESERV_INT_SIZE
              (s.reservINT, h1) with
          | none => none
          | some (rint, h2) =>
            some { s with reservFP := rfp, reservINT := rint, heap := h2,
                          map_table := retireMap (some b) s.map_table,
                          commonDataBus := none }
      else some s

/-! ## `execute_To_CDB` (lines 182-245) -/

/-- Loop state of `execute_To_CDB`: the globals and the local variables
`insn_FP_oldest`, `insn_INT_oldest`, `oldest_FP`, `oldest_INT`. -/
structure ExecSt where
  st : State
  insn_FP_oldest : Option Ptr
  insn_INT_oldest : Option Ptr
  oldest_FP : Nat
  oldest_INT : Nat
deriving DecidableEq, Repr

/-- Lines 195-205, body of the loop over `fuFP`.  The completion test of line
195 compares `current_cycle` with the 32-bit sum `tom_execute_cycle +
FU_FP_LATENCY`. -/
def execFPBody (current_cycle : Int) (i : Nat) (e : ExecSt) : Option ExecSt :=
  match rd FU_FP_SIZE e.st.fuFP i with
  | none => none
  | some p =>
    match deref e.st.heap p with
    | none => none
    | some x =>
      if current_cycle ≥ intAdd x.tom_execute_cycle FU_FP_LATENCY then
        match e.insn_FP_oldest with
        | none => some { e with insn_FP_oldest := p }
        | some o =>
          match e.st.heap[o]? with
          | none => none
          | some ox =>
            if x.index < ox.index then
              some { e with insn_FP_oldest := p, oldest_FP := i }
            else some e
      else some e

/-- Lines 220-224, body of the `j` loop:
`if (reservINT[j] == fuINT[i]) reservINT[j] = 0;` with `p` the value of
`fuINT[i]`. -/
def clearReservBody (p : Option Ptr) (j : Nat) (r : List (Option Ptr)) :
    Option (List (Option Ptr)) :=
  match rd RESERV_INT_SIZE r j with
  | none => none
  | some e => if e = p then some (r.set j none) else some r

/-- Lines 208-227, body of the loop over `fuINT`.  The completion test of line
208 compares `current_cycle` with the 32-bit sum `tom_execute_cycle +
FU_INT_LATENCY`. -/
def execINTBody (current_cycle : Int) (i : Nat) (e : ExecSt) : Option ExecSt :=
  match rd FU_INT_SIZE e.st.fuINT i with
  | none => none
  | some p =>
    match deref e.st.heap p with
    | none => none
    | some x =>
      if current_cycle ≥ intAdd x.tom_execute_cycle FU_INT_LATENCY then
        if WRITES_CDB x.op then
          match e.insn_INT_oldest with
          | none => some { e with insn_INT_oldest := p }
          | some o =>
            match e.st.heap[o]? with
            | none => none
            | some ox =>
              if x.index < ox.index then
                some { e with insn_INT_oldest := p, oldest_INT := i }
              else some e
        else
          match forLoop (clearReservBody p) RESERV_INT_SIZE e.st.reservINT with
          | none => none
          | some r =>
            some { e with st := { e.st with reservINT := r,
                                            fuINT := e.st.fuINT.set i none } }
      else some e

/-- Lines 234-235 / 240-241: `commonDataBus = insn; commonDataBus->tom_cdb_cycle
= current_cycle;` for a non-`NULL` `insn` at address `a`. -/
def stampCDB (current_cycle : Int) (a : Ptr) (x : instruction_t)
    (heap : List instruction_t) : List instruction_t :=
  heap.set a { x with tom_cdb_cycle := current_cycle }

/-- Lines 230-244: the arbitration between the two pool candidates. -/
def execArbitrate (current_cycle : Int) (e : ExecSt) : Option State :=
  match e.st.commonDataBus with
  | some _ => some e.st
  | none =>
    match e.insn_INT_oldest, e.insn_FP_oldest with
    | some ai, some af =>
      match e.st.heap[ai]?, e.st.heap[af]? with
      | some xi, some xf =>
        if xi.index < xf.index then
          some { e.st with commonDataBus := some ai,
                           heap := stampCDB current_cycle ai xi e.st.heap,
                           fuINT := e.st.fuINT.set e.oldest_INT none }
        else
          some { e.st with commonDataBus := some af,
                           heap := stampCDB current_cycle af xf e.st.heap,
                           fuFP := e.st.fuFP.set e.oldest_FP none }
      | _, _ => none
    | _, _ => none

/-- The operation `execute_To_CDB(current_cycle)`, lines 182-245. -/
def execute_To_CDB (current_cycle : Int) (s : State) : Option State :=
  match forLoop (execFPBody current_cycle) FU_FP_SIZE
      { st := s, insn_FP_oldest := none, insn_INT_oldest := none,
        oldest_FP := 0, oldest_INT := 0 } with
  | none => none
  | some e1 =>
    match forLoop (execINTBody current_cycle) FU_INT_SIZE e1 with
    | none => none
    | some e2 => execArbitrate current_cycle e2

/-! ## `issue_To_execute` (lines 257-325) -/

/-- Lines 267-274 / 289-296, the `j` loop with its `break`: `operands_ready`
becomes `false` at the first non-`NULL` `Q[j]` that differs from the bus
pointer, and keeps its incoming value otherwise. -/
def operandsScan (bus : Option Ptr) (x : instruction_t) : List Nat → Bool → Bool
  | [], r => r
  | j :: js, r =>
    if x.Q j ≠ none ∧ bus ≠ x.Q j then false else operandsScan bus x js r

/-- Loop state of `issue_To_execute`: the globals and the local variables
`operands_ready`, `oldest_to_exe_FP`, `oldest_to_exe_INT`. -/
structure IssueSt where
  st : State
  operands_ready : Bool
  oldest_to_exe_FP : Option Ptr
  oldest_to_exe_INT : Option Ptr
deriving DecidableEq, Repr

/-- Lines 266-285, body of the loop over `reservFP`. -/
def issueFPBody (current_cycle : Int) (i : Nat) (e : IssueSt) : Option IssueSt :=
  match rd RESERV_FP_SIZE e.st.reservFP i with
  | none => none
  | some p =>
    match deref e.st.heap p with
    | none => none
    | some x =>
      if current_cycle ≥ x.tom_issue_cycle + 1 then
        let ready := operandsScan e.st.commonDataBus x [0, 1, 2] e.operands_ready
        if ready then
          match e.oldest_to_exe_FP with
          | none => some { e with operands_ready := ready, oldest_to_exe_FP := p }
          | some o =>
            match e.st.heap[o]? with
            | none => none
            | some ox =>
              if x.index < ox.index then
                some { e with operands_ready := ready, oldest_to_exe_FP := p }
              else some { e with operands_ready := ready }
        else some { e with operands_ready := ready }
      else some e

/-- Lines 288-306, body of the loop over `reservINT`.  The readiness test
reads `reservINT[i]`; the candidate that is recorded is `reservFP[i]`
(lines 299, 301, 302). -/
def issueINTBody (current_cycle : Int) (i : Nat) (e : IssueSt) : Option IssueSt :=
  match rd RESERV_INT_SIZE e.st.reservINT i with
  | none => none
  | some p =>
    match deref e.st.heap p with
    | none => none
    | some x =>
      if current_cycle ≥ x.tom_issue_cycle + 1 then
        let ready := operandsScan e.st.commonDataBus x [0, 1, 2] e.operands_ready
        if ready then
          match e.oldest_to_exe_INT with
          | none =>
            match rd RESERV_FP_SIZE e.st.reservFP i with
            | none => none
            | some q => some { e with operands_ready := ready, oldest_to_exe_INT := q }
          | some o =>
            match rd RESERV_FP_SIZE e.st.reservFP i with
            | none => none
            | some q =>
              match deref e.st.heap q, e.st.heap[o]? with
              | some y, some ox =>
                if y.index < ox.index then
                  some { e with operands_ready := ready, oldest_to_exe_INT := q }
                else some { e with operands_ready := ready }
              | _, _ => none
        else some { e with operands_ready := ready }
      else some e

/-- Lines 312-313 / 320-321: `fu[i] = cand; fu[i]->tom_execute_cycle =
current_cycle;` on the record behind `cand`. -/
def stampExecute (current_cycle : Int) (a : Ptr) (heap : List instruction_t) :
    Option (List instruction_t) :=
  match heap[a]? with
  | none => none
  | some x => some (heap.set a { x with tom_execute_cycle := current_cycle })

/-- Lines 309-316, body of the loop over `fuFP`. -/
def pushFPBody (current_cycle : Int) (i : Nat) (e : IssueSt) : Option IssueSt :=
  match rd FU_FP_SIZE e.st.fuFP i with
  | none => none
  | some (some _) => some e
  | some none =>
    match e.oldest_to_exe_FP with
    | none => some e
    | some a =>
      match stampExecute current_cycle a e.st.heap with
      | none => none
      | some h =>
        some { e with st := { e.st with fuFP := e.st.fuFP.set i (some a), heap := h } }

/-- Lines 317-324, body of the loop over `fuINT`. -/
def pushINTBody (current_cycle : Int) (i : Nat) (e : IssueSt) : Option IssueSt :=
  match rd FU_INT_SIZE e.st.fuINT i with
  | none => none
  | some (some _) => some e
  | some none =>
    match e.oldest_to_exe_INT with
    | none => some e
    | some a =>
      match stampExecute current_cycle a e.st.heap with
      | none => none
      | some h =>
        some { e with st := { e.st with fuINT := e.st.fuINT.set i (some a), heap := h } }

/-- The operation `issue_To_execute(current_cycle)`, lines 257-325. -/
def issue_To_execute (current_cycle : Int) (s : State) : Option State :=
  match forLoop (issueFPBody current_cycle) RESERV_FP_SIZE
      { st := s, operands_ready := true, oldest_to_exe_FP := none,
        oldest_to_exe_INT := none } with
  | none => none
  | some e1 =>
    match forLoop (issueINTBody current_cycle) RESERV_INT_SIZE e1 with
    | none => none
    | some e2 =>
      match forLoop (pushFPBody current_cycle) FU_FP_SIZE e2 with
      | none => none
      | some e3 =>
        match forLoop (pushINTBody current_cycle) FU_INT_SIZE e3 with
        | none => none
        | some e4 => some e4.st

/-! ## `is_simulation_done` (lines 117-125) -/

/-- The test `is_simulation_done(sim_insn)`, lines 117-125. -/
def is_simulation_done (sim_insn : Int) (s : State) : Bool :=
  if s.fetch_index = sim_insn ∧ s.instr_queue_size = 0 then true else false

/-! ## `dispatch_To_issue`, `fetch`, `fetch_To_dispatch` (lines 335-367) -/

/-- The operation `dispatch_To_issue(current_cycle)`, lines 335-338.  Its body
in the source is empty. -/
def dispatch_To_issue (_current_cycle : Int) (s : State) : Option State :=
  some s

/-- The operation `fetch(trace)`, lines 348-351.  Its body in the source is
empty.  Modelled from the spec: `instruction_trace_t` of `instr.h`, which is
not part of the source tree, is the finite ordered sequence of decoded
instructions (spec section 6). -/
def fetch (_trace : List instruction_t) (s : State) : Option State :=
  some s

/-- The operation `fetch_To_dispatch(trace, current_cycle)`, lines 362-367: a
call of `fetch` and nothing else. -/
def fetch_To_dispatch (trace : List instruction_t) (_current_cycle : Int) (s : State) :
    Option State :=
  fetch trace s

/-! ## `runTomasulo` (lines 379-423) -/

/-- Lines 381-409 of `runTomasulo`: every slot of the instruction queue, the
reservation stations, the functional units and the map table is set to
`NULL`.  `instr_queue_size`, `fetch_index` and `commonDataBus` are not
assigned. -/
def runTomasulo_init (s : State) : State :=
  { s with instr_queue := List.replicate INSTR_QUEUE_SIZE none,
           reservINT := List.replicate RESERV_INT_SIZE none,
           reservFP := List.replicate RESERV_FP_SIZE none,
           fuINT := List.replicate FU_INT_SIZE none,
           fuFP := List.replicate FU_FP_SIZE none,
           map_table := s.map_table.map (fun _ => none) }

/-- Lines 412-420 of `runTomasulo`: the loop `while (true)` started with the
given value of `cycle`.  The loop body in the source calls no stage
operation: it increments `cycle` and leaves the loop when
`is_simulation_done(sim_num_insn)` holds.  `fuel` bounds the number of
iterations; the result is `none` when the loop has not been left after `fuel`
iterations. -/
def cycleLoop (sim_num_insn : Int) (s : State) : Nat → Int → Option Int
  | 0, _ => none
  | fuel + 1, cycle =>
    if is_simulation_done sim_num_insn s then some (cycle + 1)
    else cycleLoop sim_num_insn s fuel (cycle + 1)

/-- The function `runTomasulo(trace)`, lines 379-423, run for at most `fuel`
loop iterations on the globals `s`; `sim_num_insn` is the global of `sim.h`
holding the number of instructions of the trace. -/
def runTomasulo (fuel : Nat) (_trace : List instruction_t) (sim_num_insn : Int)
    (s : State) : Option Int :=
  cycleLoop sim_num_insn (runTomasulo_init s) fuel 1

/-! ## Definitions used by the proofs: loop summaries and demonstration states -/

/-- The stamp is a 32-bit `int` value and adding the latency to it does not
overflow: the mathematical sum is at most `INT_MAX`. -/
def NoOverflow (stamp latency : Int) : Prop :=
  INT_MIN ≤ stamp ∧ stamp + latency ≤ INT_MAX

/-- Result of the `j` loop on one record: each `Q` slot equal to the bus
pointer is cleared, every other field is kept. -/
def clearQs (bus : Option Ptr) (x : instruction_t) : instruction_t :=
  { x with Q0 := if x.Q0 = bus then none else x.Q0,
           Q1 := if x.Q1 = bus then none else x.Q1,
           Q2 := if x.Q2 = bus then none else x.Q2 }

/-- Summary of `k` completed iterations of a retirement loop (lines 140-150 or
151-161) started on the array `rs` and the store `heap` with bus pointer
`some b`: slots below `k` that held the bus instruction are `NULL`, every slot
below `k` was occupied, and exactly the records behind the other slots below
`k` had their `Q` slots cleared of `b`. -/
structure RetireInv (b : Ptr) (rs : List (Option Ptr)) (heap : List instruction_t)
    (k : Nat) (st : List (Option Ptr) × List instruction_t) : Prop where
  slots : ∀ i,
    st.1[i]? = if i < k ∧ rs[i]? = some (some b) then some none else rs[i]?
  occupied : ∀ i, i < k →
    ∃ a, rs[i]? = some (some a) ∧ (a ≠ b → ∃ x, heap[a]? = some x)
  touched : ∀ c, (∃ i, i < k ∧ rs[i]? = some (some c) ∧ c ≠ b) →
    st.2[c]? = (heap[c]?).map (clearQs (some b))
  untouched : ∀ c, ¬ (∃ i, i < k ∧ rs[i]? = some (some c) ∧ c ≠ b) →
    st.2[c]? = heap[c]?

/-- An integer-computation opcode. -/
def ICOMP_OP : md_opcode :=
  { icomp := true, fcomp := false, load := false, store := false,
    uncond_ctrl := false, cond_ctrl := false, trap := false }

/-- A floating-point-computation opcode. -/
def FCOMP_OP : md_opcode :=
  { icomp := false, fcomp := true, load := false, store := false,
    uncond_ctrl := false, cond_ctrl := false, trap := false }

/-- A store opcode. -/
def STORE_OP : md_opcode :=
  { icomp := false, fcomp := false, load := false, store := true,
    uncond_ctrl := false, cond_ctrl := false, trap := false }

/-- An instruction record with the given index, opcode, source slots and
issue, execute and bus stamps. -/
def mkInsn (index : Int) (op : md_opcode) (q0 q1 q2 : Option Ptr)
    (issue exec cdb : Int) : instruction_t :=
  { index := index, op := op, Q0 := q0, Q1 := q1, Q2 := q2,
    tom_dispatch_cycle := 0, tom_issue_cycle := issue,
    tom_execute_cycle := exec, tom_cdb_cycle := cdb }

/-- A pipeline at cycle 10: instruction 0 broadcast at cycle 9 and is on the
bus; all eight reservation-station slots are occupied, slot `reservINT[4]`
still by instruction 0 itself; instructions 1, 4 and 6 wait for instruction 0,
instruction 5 waits for instruction 7. -/
def retireDemo : State :=
  { heap := [mkInsn 0 ICOMP_OP none none none 1 2 9,
             mkInsn 1 FCOMP_OP (some 0) none none 2 0 0,
             mkInsn 2 FCOMP_OP none none none 3 0 0,
             mkInsn 3 FCOMP_OP none none none 4 0 0,
             mkInsn 4 ICOMP_OP none (some 0) none 5 0 0,
             mkInsn 5 ICOMP_OP none none (some 7) 6 0 0,
             mkInsn 6 ICOMP_OP (some 0) (some 0) none 7 0 0,
             mkInsn 7 ICOMP_OP none none none 8 0 0],
    instr_queue := [], instr_queue_size := 0,
    reservINT := [some 4, some 5, some 6, some 7, some 0],
    reservFP := [some 1, some 2, some 3],
    fuINT := [none, none, none], fuFP := [none],
    commonDataBus := some 0,
    map_table := [some 0, some 4, none, some 7],
    fetch_index := 8 }

/-- The state `retireDemo` after `CDB_To_retire 10`. -/
def retireDemoAfter : State :=
  { heap := [mkInsn 0 ICOMP_OP none none none 1 2 9,
             mkInsn 1 FCOMP_OP none none none 2 0 0,
             mkInsn 2 FCOMP_OP none none none 3 0 0,
             mkInsn 3 FCOMP_OP none none none 4 0 0,
             mkInsn 4 ICOMP_OP none none none 5 0 0,
             mkInsn 5 ICOMP_OP none none (some 7) 6 0 0,
             mkInsn 6 ICOMP_OP none none none 7 0 0,
             mkInsn 7 ICOMP_OP none none none 8 0 0],
    instr_queue := [], instr_queue_size := 0,
    reservINT := [some 4, some 5, some 6, some 7, none],
    reservFP := [some 1, some 2, some 3],
    fuINT := [none, none, none], fuFP := [none],
    commonDataBus := none,
    map_table := [none, some 4, none, some 7],
    fetch_index := 8 }

/-- Summary of `k` completed iterations of the loop over `fuINT` (lines
207-228) started in state `s` with loop state `e1`: the loop writes only
`reservINT` and `fuINT`; units below `k` were occupied; a unit is cleared
exactly when it is below `k` and holds a completed instruction that does not
write the bus, and that instruction is then gone from `reservINT`;
`insn_INT_oldest` is a completed bus-writing instruction of a unit below `k`
whose index is smallest among them, or `NULL` when there is none. -/
structure ExecInv (c : Int) (s : State) (e1 : ExecSt) (k : Nat) (e : ExecSt) : Prop where
  heap_eq : e.st.heap = s.heap
  fuFP_eq : e.st.fuFP = s.fuFP
  bus_eq : e.st.commonDataBus = s.commonDataBus
  map_eq : e.st.map_table = s.map_table
  fpo : e.insn_FP_oldest = e1.insn_FP_oldest
  occupied : ∀ i : Nat, i < k →
    ∃ (a : Ptr) (x : instruction_t), s.fuINT[i]? = some (some a) ∧ s.heap[a]? = some x
  fu_ge : ∀ i : Nat, k ≤ i → e.st.fuINT[i]? = s.fuINT[i]?
  fu_clear : ∀ (i : Nat) (a : Ptr) (x : instruction_t), i < k →
    s.fuINT[i]? = some (some a) → s.heap[a]? = some x →
    c ≥ intAdd x.tom_execute_cycle FU_INT_LATENCY → WRITES_CDB x.op = false →
    e.st.fuINT[i]? = some none
  fu_keep : ∀ (i : Nat) (a : Ptr) (x : instruction_t),
    s.fuINT[i]? = some (some a) → s.heap[a]? = some x →
    ¬ (c ≥ intAdd x.tom_execute_cycle FU_INT_LATENCY ∧ WRITES_CDB x.op = false) →
    e.st.fuINT[i]? = some (some a)
  rs_mono : ∀ j : Nat,
    e.st.reservINT[j]? = s.reservINT[j]? ∨ e.st.reservINT[j]? = some none
  rs_clear : ∀ (i : Nat) (a : Ptr) (x : instruction_t), i < k →
    s.fuINT[i]? = some (some a) → s.heap[a]? = some x →
    c ≥ intAdd x.tom_execute_cycle FU_INT_LATENCY → WRITES_CDB x.op = false →
    ∀ j : Nat, j < RESERV_INT_SIZE → e.st.reservINT[j]? ≠ some (some a)
  cand_none : e.insn_INT_oldest = none →
    ∀ (i : Nat) (a : Ptr) (x : instruction_t), i < k →
      s.fuINT[i]? = some (some a) → s.heap[a]? = some x →
      c ≥ intAdd x.tom_execute_cycle FU_INT_LATENCY → WRITES_CDB x.op = true → False
  cand_some : ∀ w : Ptr, e.insn_INT_oldest = some w →
    ∃ xw : instruction_t, s.heap[w]? = some xw ∧
      (∃ i : Nat, i < k ∧ s.fuINT[i]? = some (some w)) ∧
      c ≥ intAdd xw.tom_execute_cycle FU_INT_LATENCY ∧ WRITES_CDB xw.op = true ∧
      ∀ (i : Nat) (a : Ptr) (x : instruction_t), i < k →
        s.fuINT[i]? = some (some a) → s.heap[a]? = some x →
        c ≥ intAdd x.tom_execute_cycle FU_INT_LATENCY → WRITES_CDB x.op = true →
        xw.index ≤ x.index

/-- A pipeline at cycle 10 with an empty bus.  Integer unit 0 holds
instruction 0, issued at cycle 9 and still executing; integer unit 1 holds
instruction 1, issued at cycle 5 and completed; integer unit 2 holds the store
2, issued at cycle 4 and completed, which also still sits in `reservINT[0]`;
the floating-point unit holds instruction 3, issued at cycle 3 and completed. -/
def execDemo : State :=
  { heap := [mkInsn 0 ICOMP_OP none none none 8 9 0,
             mkInsn 1 ICOMP_OP none none none 4 5 0,
             mkInsn 2 STORE_OP none none none 3 4 0,
             mkInsn 3 FCOMP_OP none none none 2 3 0],
    instr_queue := [], instr_queue_size := 0,
    reservINT := [some 2, none, none, none, none],
    reservFP := [none, none, none],
    fuINT := [some 0, some 1, some 2], fuFP := [some 3],
    commonDataBus := none,
    map_table := [some 1, some 3, some 0],
    fetch_index := 4 }

/-- The state `execDemo` after `execute_To_CDB 10`. -/
def execDemoAfter : State :=
  { heap := [mkInsn 0 ICOMP_OP none none none 8 9 0,
             mkInsn 1 ICOMP_OP none none none 4 5 10,
             mkInsn 2 STORE_OP none none none 3 4 0,
             mkInsn 3 FCOMP_OP none none none 2 3 0],
    instr_queue := [], instr_queue_size := 0,
    reservINT := [none, none, none, none, none],
    reservFP := [none, none, none],
    fuINT := [none, some 1, none], fuFP := [some 3],
    commonDataBus := some 1,
    map_table := [some 1, some 3, some 0],
    fetch_index := 4 }

/-- A pipeline at cycle 10 with an empty bus in which integer unit 0 holds
instruction 0 with `tom_execute_cycle = INT_MAX - 2`, integer unit 1 holds the
completed instruction 1 (issued at cycle 5), integer unit 2 holds instruction
2 (issued at cycle 9, still executing) and the floating-point unit holds the
completed instruction 3 (issued at cycle 3). -/
def overflowDemo : State :=
  { heap := [mkInsn 0 ICOMP_OP none none none 4 2147483645 0,
             mkInsn 1 ICOMP_OP none none none 4 5 0,
             mkInsn 2 ICOMP_OP none none none 8 9 0,
             mkInsn 3 FCOMP_OP none none none 2 3 0],
    instr_queue := [], instr_queue_size := 0,
    reservINT := [none, none, none, none, none],
    reservFP := [none, none, none],
    fuINT := [some 0, some 1, some 2], fuFP := [some 3],
    commonDataBus := none,
    map_table := [some 0, some 1, some 3],
    fetch_index := 4 }

/-- The state `overflowDemo` after `execute_To_CDB 10`. -/
def overflowDemoAfter : State :=
  { overflowDemo with
      heap := [mkInsn 0 ICOMP_OP none none none 4 2147483645 10,
               mkInsn 1 ICOMP_OP none none none 4 5 0,
               mkInsn 2 ICOMP_OP none none none 8 9 0,
               mkInsn 3 FCOMP_OP none none none 2 3 0],
      fuINT := [none, some 1, some 2],
      commonDataBus := some 0 }

/-- A pipeline at cycle 10 with an empty bus in which the floating-point unit
holds instruction 0 with `tom_execute_cycle = INT_MAX - 2`, integer unit 0
holds the completed instruction 1 (issued at cycle 5), and integer units 1 and
2 hold instructions 2 and 3, issued at cycle 9 and still executing. -/
def overflowFPDemo : State :=
  { heap := [mkInsn 0 FCOMP_OP none none none 4 2147483645 0,
             mkInsn 1 ICOMP_OP none none none 4 5 0,
             mkInsn 2 ICOMP_OP none none none 8 9 0,
             mkInsn 3 ICOMP_OP none none none 8 9 0],
    instr_queue := [], instr_queue_size := 0,
    reservINT := [none, none, none, none, none],
    reservFP := [none, none, none],
    fuINT := [some 1, some 2, some 3], fuFP := [some 0],
    commonDataBus := none,
    map_table := [some 0, some 1, some 2],
    fetch_index := 4 }

/-- The state `overflowFPDemo` after `execute_To_CDB 10`. -/
def overflowFPDemoAfter : State :=
  { overflowFPDemo with
      heap := [mkInsn 0 FCOMP_OP none none none 4 2147483645 10,
               mkInsn 1 ICOMP_OP none none none 4 5 0,
               mkInsn 2 ICOMP_OP none none none 8 9 0,
               mkInsn 3 ICOMP_OP none none none 8 9 0],
      fuFP := [none],
      commonDataBus := some 0 }

/-- A pipeline at cycle 10 with an empty bus in which the completed store 0
(issued at cycle 3) is held both by integer unit 0 and by the floating-point
unit, and still sits in `reservINT[0]`; integer unit 1 holds the completed
instruction 1 (issued at cycle 5) and integer unit 2 holds instruction 2
(issued at cycle 9, still executing). -/
def storeTwiceDemo : State :=
  { heap := [mkInsn 0 STORE_OP none none none 2 3 0,
             mkInsn 1 ICOMP_OP none none none 4 5 0,
             mkInsn 2 ICOMP_OP none none none 8 9 0],
    instr_queue := [], instr_queue_size := 0,
    reservINT := [some 0, none, none, none, none],
    reservFP := [none, none, none],
    fuINT := [some 0, some 1, some 2], fuFP := [some 0],
    commonDataBus := none,
    map_table := [some 1, some 2],
    fetch_index := 3 }

/-- The state `storeTwiceDemo` after `execute_To_CDB 10`. -/
def storeTwiceDemoAfter : State :=
  { storeTwiceDemo with
      heap := [mkInsn 0 STORE_OP none none none 2 3 10,
               mkInsn 1 ICOMP_OP none none none 4 5 0,
               mkInsn 2 ICOMP_OP none none none 8 9 0],
      reservINT := [none, none, none, none, none],
      fuINT := [none, some 1, some 2], fuFP := [none],
      commonDataBus := some 0 }

/-- The state `execDemo` with a fifth instruction, broadcast at cycle 9, on
the bus. -/
def busyDemo : State :=
  { execDemo with heap := execDemo.heap ++ [mkInsn 4 ICOMP_OP none none none 1 2 9],
                  commonDataBus := some 4 }

/-- The state `busyDemo` after `execute_To_CDB 10`. -/
def busyDemoAfter : State :=
  { busyDemo with reservINT := [none, none, none, none, none],
                  fuINT := [some 0, some 1, none] }

/-- A pipeline at cycle 5 with an empty bus and all functional units free.
The integer stations hold instructions 0 to 4: instruction 0 was dispatched at
cycle 1 and has no pending operand; instruction 1 waits for instruction 0.
The floating-point stations hold, in slot order, instruction 7 (dispatched in
this very cycle 5 and waiting for instruction 1), instruction 5 and
instruction 6 (dispatched at cycles 3 and 4, no pending operand). -/
def issueDemo : State :=
  { heap := [mkInsn 0 ICOMP_OP none none none 1 0 0,
             mkInsn 1 ICOMP_OP (some 0) none none 2 0 0,
             mkInsn 2 ICOMP_OP none none none 2 0 0,
             mkInsn 3 ICOMP_OP none none none 3 0 0,
             mkInsn 4 ICOMP_OP none none none 4 0 0,
             mkInsn 5 FCOMP_OP none none none 3 0 0,
             mkInsn 6 FCOMP_OP none none none 4 0 0,
             mkInsn 7 FCOMP_OP (some 1) none none 5 0 0],
    instr_queue := [], instr_queue_size := 0,
    reservINT := [some 0, some 1, some 2, some 3, some 4],
    reservFP := [some 7, some 5, some 6],
    fuINT := [none, none, none], fuFP := [none],
    commonDataBus := none,
    map_table := [],
    fetch_index := 8 }

/-- The state `issueDemo` after `issue_To_execute 5`. -/
def issueDemoAfter : State :=
  { heap := [mkInsn 0 ICOMP_OP none none none 1 0 0,
             mkInsn 1 ICOMP_OP (some 0) none none 2 0 0,
             mkInsn 2 ICOMP_OP none none none 2 0 0,
             mkInsn 3 ICOMP_OP none none none 3 0 0,
             mkInsn 4 ICOMP_OP none none none 4 0 0,
             mkInsn 5 FCOMP_OP none none none 3 5 0,
             mkInsn 6 FCOMP_OP none none none 4 0 0,
             mkInsn 7 FCOMP_OP (some 1) none none 5 5 0],
    instr_queue := [], instr_queue_size := 0,
    reservINT := [some 0, some 1, some 2, some 3, some 4],
    reservFP := [some 7, some 5, some 6],
    fuINT := [some 7, some 7, some 7], fuFP := [some 5],
    commonDataBus := none,
    map_table := [],
    fetch_index := 8 }

/-- A pipeline at cycle 5 with an empty bus and a free floating-point unit.
Instruction 0 is executing in integer unit 0.  Floating-point station 0 holds
instruction 5, which waits for instruction 0; stations 1 and 2 hold
instructions 6 and 7, dispatched at cycles 3 and 4 with no pending operand.
The integer stations hold instructions 1, 2, 3, 4 and 8, each waiting for an
older instruction. -/
def stickyDemo : State :=
  { heap := [mkInsn 0 ICOMP_OP none none none 1 2 0,
             mkInsn 1 ICOMP_OP (some 0) none none 2 0 0,
             mkInsn 2 ICOMP_OP (some 1) none none 2 0 0,
             mkInsn 3 ICOMP_OP (some 2) none none 3 0 0,
             mkInsn 4 ICOMP_OP (some 3) none none 4 0 0,
             mkInsn 5 FCOMP_OP (some 0) none none 2 0 0,
             mkInsn 6 FCOMP_OP none none none 3 0 0,
             mkInsn 7 FCOMP_OP none none none 4 0 0,
             mkInsn 8 ICOMP_OP (some 4) none none 4 0 0],
    instr_queue := [], instr_queue_size := 0,
    reservINT := [some 1, some 2, some 3, some 4, some 8],
    reservFP := [some 5, some 6, some 7],
    fuINT := [some 0, none, none], fuFP := [none],
    commonDataBus := none,
    map_table := [],
    fetch_index := 9 }

/-- The globals at program start (lines 81-100): every static pointer is
`NULL`, `instr_queue_size` and `fetch_index` are 0; `regs` is
`MD_TOTAL_REGS`. -/
def programStart (regs : Nat) : State :=
  { heap := [],
    instr_queue := List.replicate INSTR_QUEUE_SIZE none, instr_queue_size := 0,
    reservINT := List.replicate RESERV_INT_SIZE none,
    reservFP := List.replicate RESERV_FP_SIZE none,
    fuINT := List.replicate FU_INT_SIZE none,
    fuFP := List.replicate FU_FP_SIZE none,
    commonDataBus := none,
    map_table := List.replicate regs none,
    fetch_index := 0 }

/-- The all-empty pipeline: no instruction anywhere. -/
def emptyPipeline : State := programStart 4

/-- A pipeline whose only instruction, broadcast at cycle 1, is on the bus;
every reservation-station and functional-unit slot is empty. -/
def busOnlyDemo : State :=
  { emptyPipeline with heap := [mkInsn 0 ICOMP_OP none none none 0 0 1],
                       commonDataBus := some 0, fetch_index := 1 }

/-- A pipeline at cycle 5 with an empty bus and all functional units free in
which every reservation-station slot of both pools holds an instruction that
was dispatched before cycle 5 and has no pending operand. -/
def fullIssueDemo : State :=
  { heap := [mkInsn 0 ICOMP_OP none none none 1 0 0,
             mkInsn 1 ICOMP_OP none none none 1 0 0,
             mkInsn 2 ICOMP_OP none none none 2 0 0,
             mkInsn 3 ICOMP_OP none none none 2 0 0,
             mkInsn 4 ICOMP_OP none none none 3 0 0,
             mkInsn 5 FCOMP_OP none none none 3 0 0,
             mkInsn 6 FCOMP_OP none none none 4 0 0,
             mkInsn 7 FCOMP_OP none none none 4 0 0],
    instr_queue := List.replicate INSTR_QUEUE_SIZE none, instr_queue_size := 0,
    reservINT := [some 0, some 1, some 2, some 3, some 4],
    reservFP := [some 5, some 6, some 7],
    fuINT := [none, none, none], fuFP := [none],
    commonDataBus := none,
    map_table := [],
    fetch_index := 8 }

/-- A pipeline at cycle 1 whose instruction queue holds one instruction, the
integer computation 0, at its head; every reservation-station slot is free
and the map table has no producer. -/
def dispatchDemo : State :=
  { emptyPipeline with heap := [mkInsn 0 ICOMP_OP none none none 0 0 0],
                       instr_queue := some 0 :: List.replicate 15 none,
                       instr_queue_size := 1, fetch_index := 1 }

/-- A pipeline at cycle 5 with an empty bus.  Instructions 0 and 2 are
executing in integer units 0 and 1 and still sit in their reservation
stations; integer unit 2 and the floating-point unit are free.  Instruction 1
waits for instruction 0.  The floating-point stations hold instructions 5, 6
and 7, dispatched in cycle 5 with no pending operand. -/
def reissueDemo : State :=
  { heap := [mkInsn 0 ICOMP_OP none none none 1 2 0,
             mkInsn 1 ICOMP_OP (some 0) none none 2 0 0,
             mkInsn 2 ICOMP_OP none none none 3 4 0,
             mkInsn 3 ICOMP_OP (some 2) none none 4 0 0,
             mkInsn 4 ICOMP_OP (some 3) none none 4 0 0,
             mkInsn 5 FCOMP_OP none none none 5 0 0,
             mkInsn 6 FCOMP_OP none none none 5 0 0,
             mkInsn 7 FCOMP_OP none none none 5 0 0],
    instr_queue := List.replicate INSTR_QUEUE_SIZE none, instr_queue_size := 0,
    reservINT := [some 0, some 1, some 2, some 3, some 4],
    reservFP := [some 5, some 6, some 7],
    fuINT := [some 0, some 2, none], fuFP := [none],
    commonDataBus := none,
    map_table := [],
    fetch_index := 8 }

/-- The state `reissueDemo` after `issue_To_execute 5`: instruction 5 has
entered integer unit 2 with `tom_execute_cycle = 5`. -/
def reissueDemoAfter : State :=
  { reissueDemo with
      heap := [mkInsn 0 ICOMP_OP none none none 1 2 0,
               mkInsn 1 ICOMP_OP (some 0) none none 2 0 0,
               mkInsn 2 ICOMP_OP none none none 3 4 0,
               mkInsn 3 ICOMP_OP (some 2) none none 4 0 0,
               mkInsn 4 ICOMP_OP (some 3) none none 4 0 0,
               mkInsn 5 FCOMP_OP none none none 5 5 0,
               mkInsn 6 FCOMP_OP none none none 5 0 0,
               mkInsn 7 FCOMP_OP none none none 5 0 0],
      fuINT := [some 0, some 2, some 5] }

/-- The state `reissueDemoAfter` after `issue_To_execute 6`: instruction 5 has
also entered the floating-point unit and its `tom_execute_cycle` is now 6. -/
def reissueDemoAgain : State :=
  { reissueDemoAfter with
      heap := [mkInsn 0 ICOMP_OP none none none 1 2 0,
               mkInsn 1 ICOMP_OP (some 0) none none 2 0 0,
               mkInsn 2 ICOMP_OP none none none 3 4 0,
               mkInsn 3 ICOMP_OP (some 2) none none 4 0 0,
               mkInsn 4 ICOMP_OP (some 3) none none 4 0 0,
               mkInsn 5 FCOMP_OP none none none 5 6 0,
               mkInsn 6 FCOMP_OP none none none 5 0 0,
               mkInsn 7 FCOMP_OP none none none 5 0 0],
      fuFP := [some 5] }

/-! ## Loop rule -/

/-- Invariant rule for `forLoop`: a property that holds before the first
iteration and is carried by every completing iteration holds of the result. -/
theorem forLoop_inv {σ : Type} (body : Nat → σ → Option σ) (P : Nat → σ → Prop)
    (n : Nat) (init r : σ) (h0 : P 0 init)
    (hstep : ∀ k st st', k < n → P k st → body k st = some st' → P (k + 1) st')
    (hrun : forLoop body n init = some r) : P n r := by
  induction n generalizing r with
  | zero =>
    simp only [forLoop, Option.some.injEq] at hrun
    subst hrun
    exact h0
  | succ k ih =>
    simp only [forLoop, Option.bind_eq_some] at hrun
    obtain ⟨m, hm, hb⟩ := hrun
    exact hstep k m r (Nat.lt_succ_self k)
      (ih m (fun k' st st' hk => hstep k' st st' (Nat.lt_succ_of_lt hk)) hm) hb

theorem rd_eq_some {size : Nat} {arr : List (Option Ptr)} {i : Nat} {p : Option Ptr}
    (h : rd size arr i = some p) : i < size ∧ arr[i]? = some p := by
  unfold rd at h
  split at h
  · exact ⟨by assumption, h⟩
  · exact absurd h (by simp)

theorem set_of_getElem? {α : Type} {l : List α} {i : Nat} {a : α}
    (h : l[i]? = some a) : l.set i a = l := by
  apply List.ext_getElem?
  intro j
  rw [List.getElem?_set]
  split
  · rename_i hij
    subst hij
    rw [if_pos (List.getElem?_eq_some.mp h).1, h]
  · rfl

/-! ## Facts about `CDB_To_retire` -/

theorem clearQs_idem (b : Ptr) (x : instruction_t) :
    clearQs (some b) (clearQs (some b) x) = clearQs (some b) x := by
  cases x
  simp only [clearQs]
  congr 1 <;> split <;> simp_all

theorem clearQs_Q_ne (b : Ptr) (x : instruction_t) (j : Nat) :
    (clearQs (some b) x).Q j ≠ some b := by
  unfold instruction_t.Q clearQs
  split <;> (simp only; split <;> simp_all)

theorem clearQs_Q_keep (bus : Option Ptr) (x : instruction_t) (j : Nat)
    (h : x.Q j ≠ bus) : (clearQs bus x).Q j = x.Q j := by
  unfold instruction_t.Q clearQs at *
  split <;> simp_all

theorem retireQ_step {bus : Option Ptr} {a j : Nat} {heap h1 : List instruction_t}
    (h : retireQ bus a j heap = some h1) :
    ∃ x, heap[a]? = some x ∧
      h1 = heap.set a (if x.Q j = bus then x.setQ j none else x) := by
  unfold retireQ at h
  split at h
  · exact absurd h (by simp)
  · rename_i x hx
    refine ⟨x, hx, ?_⟩
    split at h
    · simp_all
    · simp only [if_neg (by assumption)]
      simp only [Option.some.injEq] at h
      subst h
      exact (set_of_getElem? hx).symm

theorem retireQ_loop {bus : Option Ptr} {a : Ptr} {heap h' : List instruction_t}
    (hrun : forLoop (retireQ bus a) 3 heap = some h') :
    ∃ x, heap[a]? = some x ∧ h' = heap.set a (clearQs bus x) := by
  simp only [forLoop, Option.bind_eq_some, Option.some_bind] at hrun
  obtain ⟨h2, ⟨h1, hs0, hs1⟩, hs2⟩ := hrun
  obtain ⟨x, hx, rfl⟩ := retireQ_step hs0
  have hlt : a < heap.length := (List.getElem?_eq_some.mp hx).1
  obtain ⟨x1, hx1, rfl⟩ := retireQ_step hs1
  rw [List.getElem?_set_self hlt] at hx1
  obtain ⟨x2, hx2, rfl⟩ := retireQ_step hs2
  rw [List.getElem?_set_self (by simpa using hlt)] at hx2
  refine ⟨x, hx, ?_⟩
  simp only [List.set_set]
  congr 1
  simp only [Option.some.injEq] at hx1 hx2
  subst hx1
  subst hx2
  cases x
  simp only [clearQs, instruction_t.Q, instruction_t.setQ]
  split <;> split <;> split <;> simp_all

theorem retireInv_step (b : Ptr) (size : Nat) (rs : List (Option Ptr))
    (heap : List instruction_t) (k : Nat)
    (st st' : List (Option Ptr) × List instruction_t)
    (inv : RetireInv b rs heap k st)
    (hb : retireBody (some b) size k st = some st') :
    RetireInv b rs heap (k + 1) st' := by
  unfold retireBody at hb
  split at hb
  · exact absurd hb (by simp)
  · rename_i p hp
    obtain ⟨-, hpk⟩ := rd_eq_some hp
    have hrk : rs[k]? = some p := by
      have := inv.slots k
      simp only [lt_irrefl, false_and, if_false] at this
      rw [← this]; exact hpk
    split at hb
    · rename_i hpb
      subst hpb
      simp only [Option.some.injEq] at hb
      subst hb
      have hlen : k < st.1.length := (List.getElem?_eq_some.mp hpk).1
      have hset : ∀ c, (∃ i, i < k + 1 ∧ rs[i]? = some (some c) ∧ c ≠ b) ↔
          (∃ i, i < k ∧ rs[i]? = some (some c) ∧ c ≠ b) := by
        intro c
        constructor
        · rintro ⟨i, hi, hri, hc⟩
          rcases Nat.lt_succ_iff_lt_or_eq.mp hi with h | h
          · exact ⟨i, h, hri, hc⟩
          · subst h
            rw [hrk] at hri
            simp only [Option.some.injEq] at hri
            exact absurd hri.symm hc
        · rintro ⟨i, hi, hri, hc⟩
          exact ⟨i, Nat.lt_succ_of_lt hi, hri, hc⟩
      refine ⟨?_, ?_, ?_, ?_⟩
      · intro i
        simp only
        rw [List.getElem?_set]
        by_cases hik : k = i
        · subst hik
          simp [hlen, hrk]
        · rw [if_neg hik, inv.slots i]
          have : i < k + 1 ↔ i < k := by omega
          simp only [this]
      · intro i hi
        rcases Nat.lt_succ_iff_lt_or_eq.mp hi with h | h
        · exact inv.occupied i h
        · subst h
          exact ⟨b, hrk, fun hne => absurd rfl hne⟩
      · intro c hc
        exact inv.touched c ((hset c).mp hc)
      · intro c hc
        exact inv.untouched c (fun h => hc ((hset c).mpr h))
    · rename_i hpb
      split at hb
      · exact absurd hb (by simp)
      · rename_i a
        simp only [Option.map_eq_some'] at hb
        obtain ⟨h, hq, rfl⟩ := hb
        obtain ⟨x, hx, rfl⟩ := retireQ_loop hq
        have hab : a ≠ b := fun h => hpb (by rw [h])
        have hlen : a < st.2.length := (List.getElem?_eq_some.mp hx).1
        have hxh : ∃ y, heap[a]? = some y ∧ clearQs (some b) x = clearQs (some b) y := by
          by_cases hin : ∃ i, i < k ∧ rs[i]? = some (some a) ∧ a ≠ b
          · have := inv.touched a hin
            rw [hx] at this
            cases hy : heap[a]? with
            | none => rw [hy] at this; simp at this
            | some y =>
              rw [hy] at this
              simp only [Option.map_some', Option.some.injEq] at this
              exact ⟨y, rfl, by rw [this, clearQs_idem]⟩
          · have := inv.untouched a hin
            rw [hx] at this
            exact ⟨x, this.symm, rfl⟩
        obtain ⟨y, hy, hxy⟩ := hxh
        refine ⟨?_, ?_, ?_, ?_⟩
        · intro i
          simp only
          rw [inv.slots i]
          by_cases hik : i = k
          · subst hik
            simp [hrk, hab]
          · have : i < k + 1 ↔ i < k := by omega
            simp only [this]
        · intro i hi
          rcases Nat.lt_succ_iff_lt_or_eq.mp hi with h | h
          · exact inv.occupied i h
          · subst h
            exact ⟨a, hrk, fun _ => ⟨y, hy⟩⟩
        · rintro c ⟨i, hi, hri, hc⟩
          simp only
          rw [List.getElem?_set]
          by_cases hac : a = c
          · subst hac
            rw [if_pos rfl, if_pos hlen, hy, hxy]
            rfl
          · rw [if_neg hac]
            apply inv.touched c
            rcases Nat.lt_succ_iff_lt_or_eq.mp hi with h | h
            · exact ⟨i, h, hri, hc⟩
            · subst h
              rw [hrk] at hri
              simp only [Option.some.injEq] at hri
              exact absurd hri hac
        · intro c hc
          simp only
          have hac : a ≠ c := by
            intro hac
            subst hac
            exact hc ⟨k, Nat.lt_succ_self k, hrk, hab⟩
          rw [List.getElem?_set_ne hac]
          apply inv.untouched c
          rintro ⟨i, hi, hri, hcb⟩
          exact hc ⟨i, Nat.lt_succ_of_lt hi, hri, hcb⟩

theorem retire_loop (b : Ptr) (size n : Nat) (rs rs' : List (Option Ptr))
    (heap heap' : List instruction_t)
    (hrun : forLoop (retireBody (some b) size) n (rs, heap) = some (rs', heap')) :
    RetireInv b rs heap n (rs', heap') := by
  refine forLoop_inv (retireBody (some b) size) (RetireInv b rs heap) n (rs, heap)
    (rs', heap') ?_ ?_ hrun
  · refine ⟨?_, ?_, ?_, ?_⟩
    · intro i; simp
    · intro i hi; exact absurd hi (Nat.not_lt_zero i)
    · rintro c ⟨i, hi, -⟩; exact absurd hi (Nat.not_lt_zero i)
    · intro c _; rfl
  · intro k st st' _ inv hb
    exact retireInv_step b size rs heap k st st' inv hb

theorem retireInv_heap (b : Ptr) (rs : List (Option Ptr)) (heap : List instruction_t)
    (k : Nat) (st : List (Option Ptr) × List instruction_t)
    (inv : RetireInv b rs heap k st) (c : Ptr) :
    st.2[c]? = heap[c]? ∨ st.2[c]? = (heap[c]?).map (clearQs (some b)) := by
  by_cases hin : ∃ i, i < k ∧ rs[i]? = some (some c) ∧ c ≠ b
  · exact Or.inr (inv.touched c hin)
  · exact Or.inl (inv.untouched c hin)

/-- The two pool loops of `CDB_To_retire`, exposed when the retirement branch
is taken and the operation completes. -/
theorem CDB_To_retire_run {current_cycle : Int} {s s' : State} {b : Ptr}
    {X : instruction_t} (hbus : s.commonDataBus = some b) (hX : s.heap[b]? = some X)
    (hcyc : current_cycle ≥ X.tom_cdb_cycle + 1)
    (hrun : CDB_To_retire current_cycle s = some s') :
    ∃ rfp h1 rint h2,
      forLoop (retireBody (some b) RESERV_FP_SIZE) RESERV_FP_SIZE (s.reservFP, s.heap)
        = some (rfp, h1) ∧
      forLoop (retireBody (some b) RESERV_INT_SIZE) RESERV_INT_SIZE (s.reservINT, h1)
        = some (rint, h2) ∧
      s' = { s with reservFP := rfp, reservINT := rint, heap := h2,
                    map_table := retireMap (some b) s.map_table,
                    commonDataBus := none } := by
  unfold CDB_To_retire at hrun
  simp only [hbus, hX, if_pos hcyc] at hrun
  split at hrun
  · exact absurd hrun (by simp)
  · rename_i rfp h1 hfp
    split at hrun
    · exact absurd hrun (by simp)
    · rename_i rint h2 hint
      simp only [Option.some.injEq] at hrun
      exact ⟨rfp, h1, rint, h2, hfp, hint, hrun.symm⟩

theorem retireMap_getElem? (bus : Option Ptr) (m : List (Option Ptr)) (r : Nat) :
    (retireMap bus m)[r]? = (m[r]?).map (fun e => if e = bus then none else e) := by
  simp [retireMap]

/-! ## Claims about `CDB_To_retire` -/

/-- C6: retirement clears every reference to the broadcaster.  When the bus
holds the instruction `X` at address `b`, `current_cycle >= X.tom_cdb_cycle + 1`
and `CDB_To_retire` completes, then afterwards no `Q` slot of an instruction
held in a floating-point or integer reservation-station slot references `b`,
no reservation-station slot of either pool holds `b`, no map-table entry
references `b`, and the bus is empty. -/
theorem CDB_To_retire_clears_broadcaster (current_cycle : Int) (s s' : State)
    (b : Ptr) (X : instruction_t)
    (hbus : s.commonDataBus = some b) (hX : s.heap[b]? = some X)
    (hcyc : current_cycle ≥ X.tom_cdb_cycle + 1)
    (hrun : CDB_To_retire current_cycle s = some s') :
    (∀ i a, i < RESERV_FP_SIZE → s'.reservFP[i]? = some (some a) →
      ∃ y, s'.heap[a]? = some y ∧ ∀ j, j < 3 → y.Q j ≠ some b) ∧
    (∀ i a, i < RESERV_INT_SIZE → s'.reservINT[i]? = some (some a) →
      ∃ y, s'.heap[a]? = some y ∧ ∀ j, j < 3 → y.Q j ≠ some b) ∧
    (∀ i, i < RESERV_FP_SIZE → s'.reservFP[i]? ≠ some (some b)) ∧
    (∀ i, i < RESERV_INT_SIZE → s'.reservINT[i]? ≠ some (some b)) ∧
    (∀ r : Nat, s'.map_table[r]? ≠ some (some b)) ∧
    s'.commonDataBus = none := by
  obtain ⟨rfp, h1, rint, h2, hfp, hint, rfl⟩ := CDB_To_retire_run hbus hX hcyc hrun
  have inv1 := retire_loop b _ _ _ _ _ _ hfp
  have inv2 := retire_loop b _ _ _ _ _ _ hint
  have slot_ne : ∀ (n : Nat) (rs rs' : List (Option Ptr)) (hp hp' : List instruction_t),
      RetireInv b rs hp n (rs', hp') → ∀ i, i < n → rs'[i]? ≠ some (some b) := by
    intro n rs rs' hp hp' inv i hi h
    have := inv.slots i
    simp only at this
    rw [h] at this
    by_cases hc : rs[i]? = some (some b)
    · rw [if_pos ⟨hi, hc⟩] at this
      simp at this
    · rw [if_neg (fun h => hc h.2)] at this
      exact hc this.symm
  have slot_src : ∀ (n : Nat) (rs rs' : List (Option Ptr)) (hp hp' : List instruction_t),
      RetireInv b rs hp n (rs', hp') → ∀ i a, i < n → rs'[i]? = some (some a) →
      rs[i]? = some (some a) ∧ a ≠ b := by
    intro n rs rs' hp hp' inv i a hi h
    have hne : a ≠ b := by
      intro hab
      subst hab
      exact slot_ne n rs rs' hp hp' inv i hi h
    have := inv.slots i
    simp only at this
    rw [h] at this
    by_cases hc : rs[i]? = some (some b)
    · rw [if_pos ⟨hi, hc⟩] at this
      simp at this
    · rw [if_neg (fun h => hc h.2)] at this
      exact ⟨this.symm, hne⟩
  refine ⟨?_, ?_, ?_, ?_, ?_, rfl⟩
  · intro i a hi hs
    obtain ⟨hsrc, hne⟩ := slot_src _ _ _ _ _ inv1 i a hi hs
    obtain ⟨a', ha', hx⟩ := inv1.occupied i hi
    rw [hsrc] at ha'
    simp only [Option.some.injEq] at ha'
    subst ha'
    obtain ⟨x, hx⟩ := hx hne
    have h1a : h1[a]? = some (clearQs (some b) x) := by
      have := inv1.touched a ⟨i, hi, hsrc, hne⟩
      simpa [hx] using this
    have h2a : h2[a]? = some (clearQs (some b) x) := by
      rcases retireInv_heap b _ _ _ _ inv2 a with h | h
      · exact h.trans h1a
      · simp only at h
        rw [h, h1a]
        simp [clearQs_idem]
    exact ⟨_, h2a, fun j _ => clearQs_Q_ne b x j⟩
  · intro i a hi hs
    obtain ⟨hsrc, hne⟩ := slot_src _ _ _ _ _ inv2 i a hi hs
    obtain ⟨a', ha', hx⟩ := inv2.occupied i hi
    rw [hsrc] at ha'
    simp only [Option.some.injEq] at ha'
    subst ha'
    obtain ⟨x, hx⟩ := hx hne
    have h2a : h2[a]? = some (clearQs (some b) x) := by
      have := inv2.touched a ⟨i, hi, hsrc, hne⟩
      simpa [hx] using this
    exact ⟨_, h2a, fun j _ => clearQs_Q_ne b x j⟩
  · exact slot_ne _ _ _ _ _ inv1
  · exact slot_ne _ _ _ _ _ inv2
  · intro r h
    simp only at h
    rw [retireMap_getElem?] at h
    cases hm : s.map_table[r]? with
    | none => rw [hm] at h; simp at h
    | some e =>
      rw [hm] at h
      simp only [Option.map_some', Option.some.injEq] at h
      split at h
      · simp at h
      · rename_i hne; exact hne h

theorem CDB_To_retire_clears_broadcaster_witness :
    retireDemo.commonDataBus = some 0 ∧
    CDB_To_retire 10 retireDemo = some retireDemoAfter ∧
    (∀ i, i < RESERV_INT_SIZE → retireDemoAfter.reservINT[i]? ≠ some (some 0)) ∧
    (∀ r : Nat, retireDemoAfter.map_table[r]? ≠ some (some 0)) ∧
    retireDemoAfter.commonDataBus = none :=
  have h := CDB_To_retire_clears_broadcaster 10 retireDemo retireDemoAfter 0
    (mkInsn 0 ICOMP_OP none none none 1 2 9) (by decide) (by decide) (by decide)
    (by decide)
  ⟨by decide, by decide, h.2.2.2.1, h.2.2.2.2.1, h.2.2.2.2.2⟩

/-- C7: retirement does not happen in the broadcast cycle.  If the bus is
empty, or holds an instruction `X` with `current_cycle < X.tom_cdb_cycle + 1`,
then `CDB_To_retire` completes and returns the state it was given: the bus,
every reservation-station slot, every `Q` slot and every map-table entry are
the same after as before. -/
theorem CDB_To_retire_frame (current_cycle : Int) (s : State)
    (h : s.commonDataBus = none ∨
      ∃ b X, s.commonDataBus = some b ∧ s.heap[b]? = some X ∧
        current_cycle < X.tom_cdb_cycle + 1) :
    CDB_To_retire current_cycle s = some s := by
  unfold CDB_To_retire
  rcases h with h | ⟨b, X, hb, hX, hc⟩
  · simp only [h]
  · simp only [hb, hX]
    rw [if_neg (not_le.mpr hc)]

theorem CDB_To_retire_frame_witness :
    CDB_To_retire 9 retireDemo = some retireDemo :=
  CDB_To_retire_frame 9 retireDemo
    (Or.inr ⟨0, mkInsn 0 ICOMP_OP none none none 1 2 9, by decide, by decide, by decide⟩)

/-- C8: retirement respects last-writer-wins renaming.  Whenever
`CDB_To_retire` completes, every map-table entry that before the call was
empty or referenced an instruction other than the bus instruction is
unchanged, and every `Q` slot (of any instruction record) that referenced an
instruction other than the bus instruction is unchanged. -/
theorem CDB_To_retire_keeps_other_refs (current_cycle : Int) (s s' : State)
    (hrun : CDB_To_retire current_cycle s = some s') :
    (∀ (r : Nat) (e : Option Ptr), s.map_table[r]? = some e →
      (e = none ∨ e ≠ s.commonDataBus) → s'.map_table[r]? = some e) ∧
    (∀ (c : Ptr) (x : instruction_t) (j : Nat) (q : Ptr), s.heap[c]? = some x →
      j < 3 → x.Q j = some q → some q ≠ s.commonDataBus →
      ∃ x', s'.heap[c]? = some x' ∧ x'.Q j = some q) := by
  cases hbus : s.commonDataBus with
  | none =>
    rw [CDB_To_retire_frame current_cycle s (Or.inl hbus)] at hrun
    simp only [Option.some.injEq] at hrun
    subst hrun
    exact ⟨fun r e h _ => h, fun c x j q hx _ hq _ => ⟨x, hx, hq⟩⟩
  | some b =>
    cases hX : s.heap[b]? with
    | none =>
      unfold CDB_To_retire at hrun
      simp [hbus, hX] at hrun
    | some X =>
      by_cases hcyc : current_cycle ≥ X.tom_cdb_cycle + 1
      · obtain ⟨rfp, h1, rint, h2, hfp, hint, rfl⟩ := CDB_To_retire_run hbus hX hcyc hrun
        have inv1 := retire_loop b _ _ _ _ _ _ hfp
        have inv2 := retire_loop b _ _ _ _ _ _ hint
        refine ⟨?_, ?_⟩
        · intro r e he hne
          simp only
          rw [retireMap_getElem?, he]
          simp only [Option.map_some', Option.some.injEq]
          rcases hne with h | h
          · subst h; simp
          · rw [if_neg h]
        · intro c x j q hx _ hq hne
          have hkeep : (clearQs (some b) x).Q j = some q := by
            rw [clearQs_Q_keep (some b) x j (by rw [hq]; exact hne), hq]
          have h1c : h1[c]? = some x ∨ h1[c]? = some (clearQs (some b) x) := by
            rcases retireInv_heap b _ _ _ _ inv1 c with h | h
            · exact Or.inl (h.trans hx)
            · refine Or.inr ?_
              simp only at h
              rw [h, hx]; rfl
          have h2c : h2[c]? = some x ∨ h2[c]? = some (clearQs (some b) x) := by
            rcases retireInv_heap b _ _ _ _ inv2 c with h | h
            · simp only at h
              rw [h]; exact h1c
            · simp only at h
              rcases h1c with h' | h'
              · refine Or.inr ?_
                rw [h, h']; rfl
              · refine Or.inr ?_
                rw [h, h']
                simp [clearQs_idem]
          rcases h2c with h | h
          · exact ⟨x, h, hq⟩
          · exact ⟨_, h, hkeep⟩
      · rw [CDB_To_retire_frame current_cycle s
          (Or.inr ⟨b, X, hbus, hX, not_le.mp hcyc⟩)] at hrun
        simp only [Option.some.injEq] at hrun
        subst hrun
        exact ⟨fun r e h _ => h, fun c x j q hx _ hq _ => ⟨x, hx, hq⟩⟩

theorem CDB_To_retire_keeps_other_refs_witness :
    CDB_To_retire 10 retireDemo = some retireDemoAfter ∧
    retireDemoAfter.map_table[1]? = some (some 4) ∧
    (∃ x', retireDemoAfter.heap[5]? = some x' ∧ x'.Q 2 = some 7) :=
  have h := CDB_To_retire_keeps_other_refs 10 retireDemo retireDemoAfter (by decide)
  ⟨by decide, h.1 1 (some 4) (by decide) (Or.inr (by decide)),
    h.2 5 (mkInsn 5 ICOMP_OP none none (some 7) 6 0 0) 2 7 (by decide) (by decide)
      (by decide) (by decide)⟩

/-! ## Facts about `execute_To_CDB` -/

/-- A sum that does not overflow is the mathematical sum. -/
theorem intAdd_of_noOverflow {stamp latency : Int} (h : NoOverflow stamp latency)
    (hlat : 0 ≤ latency) : intAdd stamp latency = stamp + latency := by
  unfold NoOverflow INT_MIN INT_MAX at h
  unfold intAdd wrap32
  omega

/-- The 32-bit sum of an `int` stamp and a non-negative latency never exceeds
the mathematical sum. -/
theorem intAdd_le {stamp latency : Int} (hlo : INT_MIN ≤ stamp) (hlat : 0 ≤ latency) :
    intAdd stamp latency ≤ stamp + latency := by
  unfold INT_MIN at hlo
  unfold intAdd wrap32
  omega


/-- The loop of lines 220-224 clears exactly the slots below `n` that hold `p`. -/
theorem clearReserv_loop (p : Option Ptr) (n : Nat) (r r' : List (Option Ptr))
    (hrun : forLoop (clearReservBody p) n r = some r') :
    ∀ j, r'[j]? = if j < n ∧ r[j]? = some p then some none else r[j]? := by
  refine forLoop_inv (clearReservBody p)
    (fun k st => ∀ j, st[j]? = if j < k ∧ r[j]? = some p then some none else r[j]?)
    n r r' ?_ ?_ hrun
  · intro j; simp
  · intro k st st' _ inv hb j
    unfold clearReservBody at hb
    split at hb
    · exact absurd hb (by simp)
    · rename_i e he
      obtain ⟨-, hek⟩ := rd_eq_some he
      have hrk : r[k]? = some e := by
        have := inv k
        simp only [lt_irrefl, false_and, if_false] at this
        rw [← this]; exact hek
      have hlen : k < st.length := (List.getElem?_eq_some.mp hek).1
      split at hb
      · rename_i hep
        subst hep
        simp only [Option.some.injEq] at hb
        subst hb
        rw [List.getElem?_set]
        by_cases hkj : k = j
        · subst hkj
          simp [hlen, hrk]
        · rw [if_neg hkj, inv j]
          have : j < k + 1 ↔ j < k := by omega
          simp only [this]
      · rename_i hep
        simp only [Option.some.injEq] at hb
        subst hb
        rw [inv j]
        by_cases hkj : j = k
        · subst hkj
          simp [hrk, hep]
        · have : j < k + 1 ↔ j < k := by omega
          simp only [this]

/-- The loop over `fuFP` (one unit): the unit must be occupied, and its
instruction becomes `insn_FP_oldest` exactly when it has completed. -/
theorem execFP_run {current_cycle : Int} {e e1 : ExecSt}
    (hinit : e.insn_FP_oldest = none)
    (hrun : forLoop (execFPBody current_cycle) FU_FP_SIZE e = some e1) :
    ∃ f xf, e.st.fuFP[0]? = some (some f) ∧ e.st.heap[f]? = some xf ∧
      e1 = { e with insn_FP_oldest :=
        if current_cycle ≥ intAdd xf.tom_execute_cycle FU_FP_LATENCY then some f else none } := by
  simp only [FU_FP_SIZE, forLoop, Option.some_bind] at hrun
  unfold execFPBody at hrun
  split at hrun
  · exact absurd hrun (by simp)
  · rename_i p hp
    obtain ⟨-, hp0⟩ := rd_eq_some hp
    split at hrun
    · exact absurd hrun (by simp)
    · rename_i x hx
      cases p with
      | none => simp [deref] at hx
      | some f =>
        simp only [deref] at hx
        refine ⟨f, x, hp0, hx, ?_⟩
        split at hrun
        · rename_i hc
          rw [if_pos hc]
          simp only [hinit, Option.some.injEq] at hrun
          exact hrun.symm
        · rename_i hc
          rw [if_neg hc]
          simp only [Option.some.injEq] at hrun
          rw [← hrun]
          cases e
          simp only at hinit
          simp only [hinit]

theorem slot_unique {l : List (Option Ptr)} {i : Nat} {a a' : Ptr}
    (h : l[i]? = some (some a)) (h' : l[i]? = some (some a')) : a' = a := by
  rw [h] at h'
  simp only [Option.some.injEq] at h'
  exact h'.symm

theorem record_unique {l : List instruction_t} {a : Nat} {x x' : instruction_t}
    (h : l[a]? = some x) (h' : l[a]? = some x') : x' = x := by
  rw [h] at h'
  simp only [Option.some.injEq] at h'
  exact h'.symm

theorem execInv_step (c : Int) (s : State) (e1 : ExecSt) (k : Nat) (e e' : ExecSt)
    (inv : ExecInv c s e1 k e) (hb : execINTBody c k e = some e') :
    ExecInv c s e1 (k + 1) e' := by
  unfold execINTBody at hb
  split at hb
  · exact absurd hb (by simp)
  rename_i p hp
  obtain ⟨-, hpk⟩ := rd_eq_some hp
  rw [inv.fu_ge k (le_refl k)] at hpk
  split at hb
  · exact absurd hb (by simp)
  rename_i x hx
  cases p with
  | none => simp [deref] at hx
  | some a =>
  simp only [deref, inv.heap_eq] at hx
  -- facts about the unit visited in this iteration
  have hsame : ∀ {a' x'}, s.fuINT[k]? = some (some a') → s.heap[a']? = some x' →
      a' = a ∧ x' = x := by
    intro a' x' h1 h2
    have := slot_unique hpk h1
    subst this
    exact ⟨rfl, record_unique hx h2⟩
  have hocc : ∀ i, i < k + 1 →
      ∃ a x, s.fuINT[i]? = some (some a) ∧ s.heap[a]? = some x := by
    intro i hi
    rcases Nat.lt_succ_iff_lt_or_eq.mp hi with h | h
    · exact inv.occupied i h
    · subst h; exact ⟨a, x, hpk, hx⟩
  have hge : ∀ i, k + 1 ≤ i → e.st.fuINT[i]? = s.fuINT[i]? :=
    fun i hi => inv.fu_ge i (by omega)
  split at hb
  · rename_i hc
    split at hb
    · rename_i hw
      -- a completed bus-writing instruction: only the locals change
      have hclear : ∀ i a' x', i < k + 1 → s.fuINT[i]? = some (some a') →
          s.heap[a']? = some x' → c ≥ intAdd x'.tom_execute_cycle FU_INT_LATENCY →
          WRITES_CDB x'.op = false → i < k := by
        intro i a' x' hi h1 h2 _ h4
        rcases Nat.lt_succ_iff_lt_or_eq.mp hi with h | h
        · exact h
        · subst h
          obtain ⟨-, rfl⟩ := hsame h1 h2
          rw [hw] at h4
          exact absurd h4 (by simp)
      split at hb
      · rename_i hnone
        simp only [Option.some.injEq] at hb
        subst hb
        refine ⟨inv.heap_eq, inv.fuFP_eq, inv.bus_eq, inv.map_eq, inv.fpo, hocc, hge,
          ?_, inv.fu_keep, inv.rs_mono, ?_, ?_, ?_⟩
        · intro i a' x' hi h1 h2 h3 h4
          exact inv.fu_clear i a' x' (hclear i a' x' hi h1 h2 h3 h4) h1 h2 h3 h4
        · intro i a' x' hi h1 h2 h3 h4
          exact inv.rs_clear i a' x' (hclear i a' x' hi h1 h2 h3 h4) h1 h2 h3 h4
        · intro h; simp at h
        · intro w hw'
          simp only [Option.some.injEq] at hw'
          subst hw'
          refine ⟨x, hx, ⟨k, Nat.lt_succ_self k, hpk⟩, hc, hw, ?_⟩
          intro i a' x' hi h1 h2 h3 h4
          rcases Nat.lt_succ_iff_lt_or_eq.mp hi with h | h
          · exact absurd (inv.cand_none hnone i a' x' h h1 h2 h3 h4) id
          · subst h
            obtain ⟨-, rfl⟩ := hsame h1 h2
            exact le_refl _
      · rename_i o ho
        split at hb
        · exact absurd hb (by simp)
        rename_i ox hox
        rw [inv.heap_eq] at hox
        obtain ⟨xo, hxo, hio, hco, hwo, hmin⟩ := inv.cand_some o ho
        have := record_unique hox hxo
        subst this
        split at hb
        · rename_i hlt
          simp only [Option.some.injEq] at hb
          subst hb
          refine ⟨inv.heap_eq, inv.fuFP_eq, inv.bus_eq, inv.map_eq, inv.fpo, hocc, hge,
            ?_, inv.fu_keep, inv.rs_mono, ?_, ?_, ?_⟩
          · intro i a' x' hi h1 h2 h3 h4
            exact inv.fu_clear i a' x' (hclear i a' x' hi h1 h2 h3 h4) h1 h2 h3 h4
          · intro i a' x' hi h1 h2 h3 h4
            exact inv.rs_clear i a' x' (hclear i a' x' hi h1 h2 h3 h4) h1 h2 h3 h4
          · intro h; simp at h
          · intro w hw'
            simp only [Option.some.injEq] at hw'
            subst hw'
            refine ⟨x, hx, ⟨k, Nat.lt_succ_self k, hpk⟩, hc, hw, ?_⟩
            intro i a' x' hi h1 h2 h3 h4
            rcases Nat.lt_succ_iff_lt_or_eq.mp hi with h | h
            · exact le_of_lt (lt_of_lt_of_le hlt (hmin i a' x' h h1 h2 h3 h4))
            · subst h
              obtain ⟨-, rfl⟩ := hsame h1 h2
              exact le_refl _
        · rename_i hlt
          simp only [Option.some.injEq] at hb
          subst hb
          refine ⟨inv.heap_eq, inv.fuFP_eq, inv.bus_eq, inv.map_eq, inv.fpo, hocc, hge,
            ?_, inv.fu_keep, inv.rs_mono, ?_, ?_, ?_⟩
          · intro i a' x' hi h1 h2 h3 h4
            exact inv.fu_clear i a' x' (hclear i a' x' hi h1 h2 h3 h4) h1 h2 h3 h4
          · intro i a' x' hi h1 h2 h3 h4
            exact inv.rs_clear i a' x' (hclear i a' x' hi h1 h2 h3 h4) h1 h2 h3 h4
          · intro h; rw [ho] at h; simp at h
          · intro w hw'
            rw [ho] at hw'
            simp only [Option.some.injEq] at hw'
            subst hw'
            obtain ⟨i0, hi0, hs0⟩ := hio
            refine ⟨xo, hxo, ⟨i0, Nat.lt_succ_of_lt hi0, hs0⟩, hco, hwo, ?_⟩
            intro i a' x' hi h1 h2 h3 h4
            rcases Nat.lt_succ_iff_lt_or_eq.mp hi with h | h
            · exact hmin i a' x' h h1 h2 h3 h4
            · subst h
              obtain ⟨-, rfl⟩ := hsame h1 h2
              exact not_lt.mp hlt
    · rename_i hw
      have hwf : WRITES_CDB x.op = false := by simpa using hw
      -- a completed instruction that does not write the bus: it is discarded
      split at hb
      · exact absurd hb (by simp)
      rename_i r hr
      have hrj := clearReserv_loop _ _ _ _ hr
      simp only [Option.some.injEq] at hb
      subst hb
      have hlen : k < e.st.fuINT.length := by
        have := inv.fu_ge k (le_refl k)
        rw [hpk] at this
        exact (List.getElem?_eq_some.mp this).1
      have hnot : ∀ i a' x', i < k + 1 → s.fuINT[i]? = some (some a') →
          s.heap[a']? = some x' → WRITES_CDB x'.op = true → i < k := by
        intro i a' x' hi h1 h2 h4
        rcases Nat.lt_succ_iff_lt_or_eq.mp hi with h | h
        · exact h
        · subst h
          obtain ⟨-, rfl⟩ := hsame h1 h2
          rw [hwf] at h4
          exact absurd h4 (by simp)
      refine ⟨inv.heap_eq, inv.fuFP_eq, inv.bus_eq, inv.map_eq, inv.fpo, hocc, ?_,
        ?_, ?_, ?_, ?_, ?_, ?_⟩
      · intro i hi
        simp only
        rw [List.getElem?_set_ne (by omega)]
        exact inv.fu_ge i (by omega)
      · intro i a' x' hi h1 h2 h3 h4
        simp only
        rw [List.getElem?_set]
        by_cases hki : k = i
        · rw [if_pos hki, if_pos hlen]
        · rw [if_neg hki]
          exact inv.fu_clear i a' x' (by omega) h1 h2 h3 h4
      · intro i a' x' h1 h2 h3
        simp only
        have hki : k ≠ i := by
          intro hki
          subst hki
          obtain ⟨-, rfl⟩ := hsame h1 h2
          exact h3 ⟨hc, hwf⟩
        rw [List.getElem?_set_ne hki]
        exact inv.fu_keep i a' x' h1 h2 h3
      · intro j
        simp only
        rw [hrj j]
        split
        · exact Or.inr rfl
        · exact inv.rs_mono j
      · intro i a' x' hi h1 h2 h3 h4 j hj
        simp only
        rw [hrj j]
        rcases Nat.lt_succ_iff_lt_or_eq.mp hi with h | h
        · split
          · simp
          · exact inv.rs_clear i a' x' h h1 h2 h3 h4 j hj
        · subst h
          obtain ⟨rfl, -⟩ := hsame h1 h2
          split
          · simp
          · rename_i hn
            intro heq
            exact hn ⟨hj, heq⟩
      · intro hnone i a' x' hi h1 h2 h3 h4
        exact inv.cand_none hnone i a' x' (hnot i a' x' hi h1 h2 h4) h1 h2 h3 h4
      · intro w hw'
        obtain ⟨xw, hxw, ⟨i0, hi0, hs0⟩, hcw, hww, hmin⟩ := inv.cand_some w hw'
        refine ⟨xw, hxw, ⟨i0, Nat.lt_succ_of_lt hi0, hs0⟩, hcw, hww, ?_⟩
        intro i a' x' hi h1 h2 h3 h4
        exact hmin i a' x' (hnot i a' x' hi h1 h2 h4) h1 h2 h3 h4
  · rename_i hc
    simp only [Option.some.injEq] at hb
    subst hb
    have hlt : ∀ i a' x', i < k + 1 → s.fuINT[i]? = some (some a') →
        s.heap[a']? = some x' → c ≥ intAdd x'.tom_execute_cycle FU_INT_LATENCY → i < k := by
      intro i a' x' hi h1 h2 h3
      rcases Nat.lt_succ_iff_lt_or_eq.mp hi with h | h
      · exact h
      · subst h
        obtain ⟨-, rfl⟩ := hsame h1 h2
        exact absurd h3 hc
    refine ⟨inv.heap_eq, inv.fuFP_eq, inv.bus_eq, inv.map_eq, inv.fpo, hocc, hge,
      ?_, inv.fu_keep, inv.rs_mono, ?_, ?_, ?_⟩
    · intro i a' x' hi h1 h2 h3 h4
      exact inv.fu_clear i a' x' (hlt i a' x' hi h1 h2 h3) h1 h2 h3 h4
    · intro i a' x' hi h1 h2 h3 h4
      exact inv.rs_clear i a' x' (hlt i a' x' hi h1 h2 h3) h1 h2 h3 h4
    · intro hnone i a' x' hi h1 h2 h3 h4
      exact inv.cand_none hnone i a' x' (hlt i a' x' hi h1 h2 h3) h1 h2 h3 h4
    · intro w hw'
      obtain ⟨xw, hxw, ⟨i0, hi0, hs0⟩, hcw, hww, hmin⟩ := inv.cand_some w hw'
      refine ⟨xw, hxw, ⟨i0, Nat.lt_succ_of_lt hi0, hs0⟩, hcw, hww, ?_⟩
      intro i a' x' hi h1 h2 h3 h4
      exact hmin i a' x' (hlt i a' x' hi h1 h2 h3) h1 h2 h3 h4

/-- A completing run of `execute_To_CDB`, split into its three parts: the
floating-point unit is occupied and is `insn_FP_oldest` exactly when it has
completed; the integer loop establishes `ExecInv`; the arbitration of lines
230-244 yields the final state. -/
theorem execute_To_CDB_run {c : Int} {s s' : State}
    (hrun : execute_To_CDB c s = some s') :
    ∃ (f : Ptr) (xf : instruction_t) (e1 e2 : ExecSt),
      s.fuFP[0]? = some (some f) ∧ s.heap[f]? = some xf ∧
      ExecInv c s e1 FU_INT_SIZE e2 ∧
      e2.insn_FP_oldest =
        (if c ≥ intAdd xf.tom_execute_cycle FU_FP_LATENCY then some f else none) ∧
      execArbitrate c e2 = some s' := by
  unfold execute_To_CDB at hrun
  split at hrun
  · exact absurd hrun (by simp)
  rename_i e1 he1
  split at hrun
  · exact absurd hrun (by simp)
  rename_i e2 he2
  obtain ⟨f, xf, hf, hxf, he⟩ := execFP_run rfl he1
  have inv : ExecInv c s e1 FU_INT_SIZE e2 := by
    refine forLoop_inv (execINTBody c) (ExecInv c s e1) FU_INT_SIZE e1 e2 ?_ ?_ he2
    · subst he
      refine ⟨rfl, rfl, rfl, rfl, rfl, ?_, ?_, ?_, ?_, ?_, ?_, ?_, ?_⟩
      · intro i hi; exact absurd hi (Nat.not_lt_zero i)
      · intro i _; rfl
      · intro i a x hi; exact absurd hi (Nat.not_lt_zero i)
      · intro i a x h1 _ _; exact h1
      · intro j; exact Or.inl rfl
      · intro i a x hi; exact absurd hi (Nat.not_lt_zero i)
      · intro _ i a x hi; exact absurd hi (Nat.not_lt_zero i)
      · intro w hw; simp at hw
    · intro k st st' _ inv hb
      exact execInv_step c s _ k st st' inv hb
  refine ⟨f, xf, e1, e2, hf, hxf, inv, ?_, hrun⟩
  rw [inv.fpo, he]

theorem execArbitrate_busy {c : Int} {e : ExecSt} {B : Ptr}
    (hbus : e.st.commonDataBus = some B) : execArbitrate c e = some e.st := by
  unfold execArbitrate
  simp only [hbus]

theorem execArbitrate_free {c : Int} {e : ExecSt} {s' : State}
    (hbus : e.st.commonDataBus = none) (hrun : execArbitrate c e = some s') :
    ∃ (ai af : Ptr) (xi xf : instruction_t),
      e.insn_INT_oldest = some ai ∧ e.insn_FP_oldest = some af ∧
      e.st.heap[ai]? = some xi ∧ e.st.heap[af]? = some xf ∧
      ((xi.index < xf.index ∧
        s' = { e.st with commonDataBus := some ai,
                         heap := stampCDB c ai xi e.st.heap,
                         fuINT := e.st.fuINT.set e.oldest_INT none }) ∨
       (¬ xi.index < xf.index ∧
        s' = { e.st with commonDataBus := some af,
                         heap := stampCDB c af xf e.st.heap,
                         fuFP := e.st.fuFP.set e.oldest_FP none })) := by
  unfold execArbitrate at hrun
  simp only [hbus] at hrun
  split at hrun
  · rename_i ai af hi hf
    split at hrun
    · rename_i xi xf hxi hxf
      refine ⟨ai, af, xi, xf, hi, hf, hxi, hxf, ?_⟩
      split at hrun
      · rename_i hlt
        simp only [Option.some.injEq] at hrun
        exact Or.inl ⟨hlt, hrun.symm⟩
      · rename_i hlt
        simp only [Option.some.injEq] at hrun
        exact Or.inr ⟨hlt, hrun.symm⟩
    · exact absurd hrun (by simp)
  · exact absurd hrun (by simp)

/-- C2 (the code departs from the claim): at cycle 10 on `execDemo`, whose bus
is empty, `execute_To_CDB` places instruction 1 on the bus; afterwards
instruction 1 still occupies integer unit 1, and integer unit 0, which held
the still-executing instruction 0, has been emptied instead. -/
theorem execute_To_CDB_vacates_wrong_unit :
    execDemo.commonDataBus = none ∧
    execute_To_CDB 10 execDemo = some execDemoAfter ∧
    execDemoAfter.commonDataBus = some 1 ∧
    execDemoAfter.fuINT[1]? = some (some 1) ∧
    execDemo.fuINT[0]? = some (some 0) ∧
    execDemo.heap[0]? = some (mkInsn 0 ICOMP_OP none none none 8 9 0) ∧
    ¬ ((10 : Int) ≥ (mkInsn 0 ICOMP_OP none none none 8 9 0).tom_execute_cycle
        + FU_INT_LATENCY) ∧
    execDemoAfter.fuINT[0]? = some none := by
  decide

/-- C3 as stated fails, for either pool.  On `overflowDemo` at cycle 10 the bus
is empty before the call, `execute_To_CDB` completes and places on the bus
instruction 0, which came from integer unit 0 and whose `tom_execute_cycle` is
`INT_MAX - 2`, so that `10 < tom_execute_cycle + 5`.  On `overflowFPDemo` at
cycle 10 it places on the bus instruction 0, which came from the
floating-point unit and whose `tom_execute_cycle` is `INT_MAX - 2`, so that
`10 < tom_execute_cycle + 7`. -/
theorem execute_To_CDB_early_broadcast_on_overflow :
    (overflowDemo.commonDataBus ≠ some 0 ∧
      overflowDemo.fuINT[0]? = some (some 0) ∧
      overflowDemo.fuFP[0]? ≠ some (some 0) ∧
      overflowDemo.heap[0]? =
        some (mkInsn 0 ICOMP_OP none none none 4 2147483645 0) ∧
      execute_To_CDB 10 overflowDemo = some overflowDemoAfter ∧
      overflowDemoAfter.commonDataBus = some 0 ∧
      (10 : Int) <
        (mkInsn 0 ICOMP_OP none none none 4 2147483645 0).tom_execute_cycle
          + FU_INT_LATENCY) ∧
    (overflowFPDemo.commonDataBus ≠ some 0 ∧
      overflowFPDemo.fuFP[0]? = some (some 0) ∧
      overflowFPDemo.heap[0]? =
        some (mkInsn 0 FCOMP_OP none none none 4 2147483645 0) ∧
      execute_To_CDB 10 overflowFPDemo = some overflowFPDemoAfter ∧
      overflowFPDemoAfter.commonDataBus = some 0 ∧
      (10 : Int) <
        (mkInsn 0 FCOMP_OP none none none 4 2147483645 0).tom_execute_cycle
          + FU_FP_LATENCY) := by
  decide

/-- C3, amended: no early broadcast.  If `execute_To_CDB` completes and the bus
afterwards holds an instruction `w` that it did not hold before, and the
latency sum of `w` does not overflow for the unit that held it
(`tom_execute_cycle + 5` if an integer unit held it, `tom_execute_cycle + 7` if
the floating-point unit held it, the stamp being a 32-bit `int` value), then
`w` was held by an integer unit or by the floating-point unit,
`current_cycle >= tom_execute_cycle + 5` if an integer unit held it, and
`current_cycle >= tom_execute_cycle + 7` if the floating-point unit held it. -/
theorem execute_To_CDB_no_early_broadcast (current_cycle : Int) (s s' : State)
    (w : Ptr) (xw : instruction_t) (hnew : s.commonDataBus ≠ some w)
    (hrun : execute_To_CDB current_cycle s = some s')
    (hafter : s'.commonDataBus = some w)
    (hxw : s.heap[w]? = some xw)
    (hno5 : (∃ i : Nat, i < FU_INT_SIZE ∧ s.fuINT[i]? = some (some w)) →
      NoOverflow xw.tom_execute_cycle FU_INT_LATENCY)
    (hno7 : s.fuFP[0]? = some (some w) →
      NoOverflow xw.tom_execute_cycle FU_FP_LATENCY) :
    ((∃ i : Nat, i < FU_INT_SIZE ∧ s.fuINT[i]? = some (some w)) ∨
      s.fuFP[0]? = some (some w)) ∧
    ((∃ i : Nat, i < FU_INT_SIZE ∧ s.fuINT[i]? = some (some w)) →
      current_cycle ≥ xw.tom_execute_cycle + FU_INT_LATENCY) ∧
    (s.fuFP[0]? = some (some w) →
      current_cycle ≥ xw.tom_execute_cycle + FU_FP_LATENCY) := by
  obtain ⟨f, xf, e1, e2, hf, hxf, inv, hfpo, harb⟩ := execute_To_CDB_run hrun
  cases hbus : s.commonDataBus with
  | some B =>
    have hb2 : e2.st.commonDataBus = some B := inv.bus_eq.trans hbus
    rw [execArbitrate_busy hb2] at harb
    simp only [Option.some.injEq] at harb
    subst harb
    rw [hb2] at hafter
    rw [hbus] at hnew
    exact absurd hafter hnew
  | none =>
    have hb2 : e2.st.commonDataBus = none := inv.bus_eq.trans hbus
    obtain ⟨ai, af, xi, xf2, hI, hF, hxi, hxf2, hcase⟩ := execArbitrate_free hb2 harb
    have hcf : current_cycle ≥ intAdd xf.tom_execute_cycle FU_FP_LATENCY := by
      by_contra hc
      rw [if_neg hc, hF] at hfpo
      simp at hfpo
    rw [if_pos hcf, hF] at hfpo
    simp only [Option.some.injEq] at hfpo
    subst hfpo
    rw [inv.heap_eq] at hxi hxf2
    have := (record_unique hxf hxf2).symm
    subst this
    obtain ⟨xc, hxc, ⟨iw, hiw, hsw⟩, hcw, hww, -⟩ := inv.cand_some ai hI
    have := (record_unique hxi hxc).symm
    subst this
    -- the floating-point unit's instruction, when it is `w`, has completed
    have hfp : s.fuFP[0]? = some (some w) →
        current_cycle ≥ xw.tom_execute_cycle + FU_FP_LATENCY := by
      intro hfw
      have := slot_unique hf hfw
      subst this
      have := record_unique hxf hxw
      subst this
      rw [← intAdd_of_noOverflow (hno7 hfw) (by decide)]
      exact hcf
    rcases hcase with ⟨-, rfl⟩ | ⟨-, rfl⟩
    · simp only [Option.some.injEq] at hafter
      subst hafter
      have := record_unique hxi hxw
      subst this
      refine ⟨Or.inl ⟨iw, hiw, hsw⟩, ?_, hfp⟩
      intro hin
      rw [← intAdd_of_noOverflow (hno5 hin) (by decide)]
      exact hcw
    · simp only [Option.some.injEq] at hafter
      subst hafter
      refine ⟨Or.inr hf, ?_, hfp⟩
      intro _
      have h7 := hfp hf
      simp only [FU_FP_LATENCY, FU_INT_LATENCY] at h7 ⊢
      omega

theorem execute_To_CDB_no_early_broadcast_witness :
    ((∃ i : Nat, i < FU_INT_SIZE ∧ execDemo.fuINT[i]? = some (some 1)) ∨
      execDemo.fuFP[0]? = some (some 1)) ∧
    ((∃ i : Nat, i < FU_INT_SIZE ∧ execDemo.fuINT[i]? = some (some 1)) →
      (10 : Int) ≥ (mkInsn 1 ICOMP_OP none none none 4 5 0).tom_execute_cycle
        + FU_INT_LATENCY) ∧
    (execDemo.fuFP[0]? = some (some 1) →
      (10 : Int) ≥ (mkInsn 1 ICOMP_OP none none none 4 5 0).tom_execute_cycle
        + FU_FP_LATENCY) :=
  execute_To_CDB_no_early_broadcast 10 execDemo execDemoAfter 1
    (mkInsn 1 ICOMP_OP none none none 4 5 0)
    (by decide) (by decide) (by decide) (by decide)
    (fun _ => by unfold NoOverflow; decide)
    (fun h => absurd h (by decide))

/-- C9 as stated fails: on `storeTwiceDemo` at cycle 10 the bus is empty,
integer unit 0 holds the store 0 with `10 >= tom_execute_cycle + 5`, and
`execute_To_CDB` completes; the same store is also the instruction of the
floating-point unit, which has no class test, and afterwards the bus holds the
store. -/
theorem execute_To_CDB_store_reaches_bus :
    storeTwiceDemo.commonDataBus = none ∧
    storeTwiceDemo.fuINT[0]? = some (some 0) ∧
    storeTwiceDemo.fuFP[0]? = some (some 0) ∧
    storeTwiceDemo.heap[0]? = some (mkInsn 0 STORE_OP none none none 2 3 0) ∧
    IS_STORE STORE_OP = true ∧ WRITES_CDB STORE_OP = false ∧
    (10 : Int) ≥ (mkInsn 0 STORE_OP none none none 2 3 0).tom_execute_cycle
      + FU_INT_LATENCY ∧
    execute_To_CDB 10 storeTwiceDemo = some storeTwiceDemoAfter ∧
    storeTwiceDemoAfter.commonDataBus = some 0 := by
  decide

/-- C9, amended: stores complete silently.  When an integer unit holds an
instruction `S` that does not write the bus (a store, line 219) with
`current_cycle >= S.tom_execute_cycle + 5` (the stamp being a 32-bit `int`
value) and `execute_To_CDB` completes, then afterwards `S` occupies no integer
unit and no integer reservation-station slot and every map-table entry is
unchanged; and, provided `S` is not also the instruction held by the
floating-point unit, the call does not put `S` on the bus: the bus holds `S`
afterwards only if it held `S` before the call. -/
theorem execute_To_CDB_store_silent (current_cycle : Int) (s s' : State)
    (i0 : Nat) (S : Ptr) (xS : instruction_t)
    (hi0 : i0 < FU_INT_SIZE) (hS : s.fuINT[i0]? = some (some S))
    (hxS : s.heap[S]? = some xS) (hstore : WRITES_CDB xS.op = false)
    (hc : current_cycle ≥ xS.tom_execute_cycle + FU_INT_LATENCY)
    (hint : INT_MIN ≤ xS.tom_execute_cycle)
    (hrun : execute_To_CDB current_cycle s = some s') :
    (∀ i : Nat, i < FU_INT_SIZE → s'.fuINT[i]? ≠ some (some S)) ∧
    (∀ j : Nat, j < RESERV_INT_SIZE → s'.reservINT[j]? ≠ some (some S)) ∧
    s'.map_table = s.map_table ∧
    (s.fuFP[0]? ≠ some (some S) → s'.commonDataBus = some S →
      s.commonDataBus = some S) := by
  obtain ⟨f, xf, e1, e2, hf, hxf, inv, hfpo, harb⟩ := execute_To_CDB_run hrun
  have hcw : current_cycle ≥ intAdd xS.tom_execute_cycle FU_INT_LATENCY :=
    le_trans (intAdd_le hint (by decide)) hc
  have hfu2 : ∀ i : Nat, i < FU_INT_SIZE → e2.st.fuINT[i]? ≠ some (some S) := by
    intro i hi
    obtain ⟨a, x, h1, h2⟩ := inv.occupied i hi
    by_cases hd : current_cycle ≥ intAdd x.tom_execute_cycle FU_INT_LATENCY ∧
        WRITES_CDB x.op = false
    · rw [inv.fu_clear i a x hi h1 h2 hd.1 hd.2]
      simp
    · rw [inv.fu_keep i a x h1 h2 hd]
      intro heq
      simp only [Option.some.injEq] at heq
      subst heq
      have := record_unique hxS h2
      subst this
      exact hd ⟨hcw, hstore⟩
  have hrs2 : ∀ j : Nat, j < RESERV_INT_SIZE → e2.st.reservINT[j]? ≠ some (some S) :=
    inv.rs_clear i0 S xS hi0 hS hxS hcw hstore
  cases hbus : s.commonDataBus with
  | some B =>
    have hb2 : e2.st.commonDataBus = some B := inv.bus_eq.trans hbus
    rw [execArbitrate_busy hb2] at harb
    simp only [Option.some.injEq] at harb
    subst harb
    refine ⟨hfu2, hrs2, inv.map_eq, ?_⟩
    intro _ hafter
    rw [hb2] at hafter
    exact hafter
  | none =>
    have hb2 : e2.st.commonDataBus = none := inv.bus_eq.trans hbus
    obtain ⟨ai, af, xi, xf2, hI, hF, hxi, hxf2, hcase⟩ := execArbitrate_free hb2 harb
    rw [inv.heap_eq] at hxi
    obtain ⟨xw, hxw, -, -, hww, -⟩ := inv.cand_some ai hI
    have := (record_unique hxi hxw).symm
    subst this
    rcases hcase with ⟨-, rfl⟩ | ⟨-, rfl⟩
    · refine ⟨?_, hrs2, inv.map_eq, ?_⟩
      · intro i hi
        simp only
        rw [List.getElem?_set]
        split
        · split <;> simp
        · exact hfu2 i hi
      · intro _ heq
        simp only [Option.some.injEq] at heq
        subst heq
        have := record_unique hxS hxi
        subst this
        rw [hstore] at hww
        exact absurd hww (by simp)
    · refine ⟨hfu2, hrs2, inv.map_eq, ?_⟩
      intro hnf heq
      simp only [Option.some.injEq] at heq
      subst heq
      have hcf : current_cycle ≥ intAdd xf.tom_execute_cycle FU_FP_LATENCY := by
        by_contra hcn
        rw [if_neg hcn, hF] at hfpo
        simp at hfpo
      rw [if_pos hcf, hF] at hfpo
      simp only [Option.some.injEq] at hfpo
      subst hfpo
      exact absurd hf hnf

theorem execute_To_CDB_store_silent_witness :
    (∀ i : Nat, i < FU_INT_SIZE → execDemoAfter.fuINT[i]? ≠ some (some 2)) ∧
    (∀ j : Nat, j < RESERV_INT_SIZE → execDemoAfter.reservINT[j]? ≠ some (some 2)) ∧
    execDemoAfter.map_table = execDemo.map_table ∧
    (execDemo.fuFP[0]? ≠ some (some 2) → execDemoAfter.commonDataBus = some 2 →
      execDemo.commonDataBus = some 2) :=
  execute_To_CDB_store_silent 10 execDemo execDemoAfter 2 2
    (mkInsn 2 STORE_OP none none none 3 4 0)
    (by decide) (by decide) (by decide) (by decide) (by decide) (by decide)
    (by decide)

/-- C10: at most one broadcast per bus slot.  If the bus already holds `B`
when `execute_To_CDB` runs and the operation completes, then afterwards the
bus still holds `B`, no instruction record has changed (so `B` has the same
`tom_cdb_cycle`), every completed bus-writing instruction that was in an
integer unit is still in that unit, and a completed instruction that was in
the floating-point unit is still there. -/
theorem execute_To_CDB_bus_busy (current_cycle : Int) (s s' : State) (B : Ptr)
    (hbus : s.commonDataBus = some B)
    (hrun : execute_To_CDB current_cycle s = some s') :
    s'.commonDataBus = some B ∧ s'.heap = s.heap ∧
    (∀ (i : Nat) (a : Ptr) (x : instruction_t), i < FU_INT_SIZE →
      s.fuINT[i]? = some (some a) → s.heap[a]? = some x →
      current_cycle ≥ x.tom_execute_cycle + FU_INT_LATENCY →
      WRITES_CDB x.op = true → s'.fuINT[i]? = some (some a)) ∧
    (∀ (a : Ptr) (x : instruction_t), s.fuFP[0]? = some (some a) →
      s.heap[a]? = some x →
      current_cycle ≥ x.tom_execute_cycle + FU_FP_LATENCY →
      s'.fuFP[0]? = some (some a)) := by
  obtain ⟨f, xf, e1, e2, hf, hxf, inv, hfpo, harb⟩ := execute_To_CDB_run hrun
  have hb2 : e2.st.commonDataBus = some B := inv.bus_eq.trans hbus
  rw [execArbitrate_busy hb2] at harb
  simp only [Option.some.injEq] at harb
  subst harb
  refine ⟨hb2, inv.heap_eq, ?_, ?_⟩
  · intro i a x _ h1 h2 _ h4
    apply inv.fu_keep i a x h1 h2
    rintro ⟨-, h⟩
    rw [h4] at h
    exact absurd h (by simp)
  · intro a x h1 _ _
    rw [inv.fuFP_eq]
    exact h1

theorem execute_To_CDB_bus_busy_witness :
    busyDemoAfter.commonDataBus = some 4 ∧ busyDemoAfter.heap = busyDemo.heap ∧
    (∀ (i : Nat) (a : Ptr) (x : instruction_t), i < FU_INT_SIZE →
      busyDemo.fuINT[i]? = some (some a) → busyDemo.heap[a]? = some x →
      (10 : Int) ≥ x.tom_execute_cycle + FU_INT_LATENCY →
      WRITES_CDB x.op = true → busyDemoAfter.fuINT[i]? = some (some a)) ∧
    (∀ (a : Ptr) (x : instruction_t), busyDemo.fuFP[0]? = some (some a) →
      busyDemo.heap[a]? = some x →
      (10 : Int) ≥ x.tom_execute_cycle + FU_FP_LATENCY →
      busyDemoAfter.fuFP[0]? = some (some a)) :=
  execute_To_CDB_bus_busy 10 busyDemo busyDemoAfter 4 (by decide) (by decide)

/-! ## Claims about `issue_To_execute` -/

/-- C4 (the code departs from the claim): at cycle 5 on `issueDemo`,
`issue_To_execute` moves instruction 7 into the integer units although it was
dispatched in cycle 5 itself (`5 < tom_issue_cycle + 1`) and its slot `Q[0]`
references instruction 1, which is not on the (empty) bus. -/
theorem issue_To_execute_issues_ineligible :
    issueDemo.fuINT[0]? = some none ∧
    issue_To_execute 5 issueDemo = some issueDemoAfter ∧
    issueDemoAfter.fuINT[0]? = some (some 7) ∧
    issueDemo.heap[7]? = some (mkInsn 7 FCOMP_OP (some 1) none none 5 0 0) ∧
    ¬ ((5 : Int) ≥ (mkInsn 7 FCOMP_OP (some 1) none none 5 0 0).tom_issue_cycle + 1) ∧
    (mkInsn 7 FCOMP_OP (some 1) none none 5 0 0).Q 0 = some 1 ∧
    issueDemo.commonDataBus = none := by
  decide

/-- C5 (the code departs from the claim): at cycle 5 on `stickyDemo` the
floating-point unit is free and floating-point stations 1 and 2 hold the
eligible instructions 6 and 7 (dispatched before cycle 5, all `Q` slots
empty), yet `issue_To_execute` completes without issuing anything: the state
is unchanged and the floating-point unit is still empty. -/
theorem issue_To_execute_skips_eligible :
    stickyDemo.fuFP[0]? = some none ∧
    stickyDemo.reservFP[1]? = some (some 6) ∧
    stickyDemo.heap[6]? = some (mkInsn 6 FCOMP_OP none none none 3 0 0) ∧
    (5 : Int) ≥ (mkInsn 6 FCOMP_OP none none none 3 0 0).tom_issue_cycle + 1 ∧
    (∀ j : Nat, (mkInsn 6 FCOMP_OP none none none 3 0 0).Q j = none) ∧
    issue_To_execute 5 stickyDemo = some stickyDemo ∧
    stickyDemo.fuFP[0]? ≠ some (some 6) := by
  refine ⟨by decide, by decide, by decide, by decide, ?_, by decide, by decide⟩
  intro j
  unfold instruction_t.Q
  split <;> rfl

/-! ## Facts about `issue_To_execute` -/

/-- The candidate-selection loop over `reservFP` writes no global. -/
theorem issueFPBody_st {c : Int} {i : Nat} {e e' : IssueSt}
    (h : issueFPBody c i e = some e') : e'.st = e.st := by
  unfold issueFPBody at h
  simp only at h
  repeat' split at h
  all_goals first
    | (simp only [Option.some.injEq] at h; subst h; rfl)
    | (simp at h)

/-- The candidate-selection loop over `reservINT` writes no global. -/
theorem issueINTBody_st {c : Int} {i : Nat} {e e' : IssueSt}
    (h : issueINTBody c i e = some e') : e'.st = e.st := by
  unfold issueINTBody at h
  simp only at h
  repeat' split at h
  all_goals first
    | (simp only [Option.some.injEq] at h; subst h; rfl)
    | (simp at h)

/-- One iteration of the loop of lines 309-316 leaves `fuINT` alone and keeps
every occupied slot of `fuFP`. -/
theorem pushFPBody_keeps {c : Int} {i : Nat} {e e' : IssueSt}
    (h : pushFPBody c i e = some e') :
    e'.st.fuINT = e.st.fuINT ∧
    ∀ (j : Nat) (a : Ptr), e.st.fuFP[j]? = some (some a) →
      e'.st.fuFP[j]? = some (some a) := by
  unfold pushFPBody at h
  split at h
  · exact absurd h (by simp)
  · simp only [Option.some.injEq] at h
    subst h
    exact ⟨rfl, fun _ _ hj => hj⟩
  · rename_i hrd
    obtain ⟨-, hi⟩ := rd_eq_some hrd
    split at h
    · simp only [Option.some.injEq] at h
      subst h
      exact ⟨rfl, fun _ _ hj => hj⟩
    · split at h
      · exact absurd h (by simp)
      · simp only [Option.some.injEq] at h
        subst h
        refine ⟨rfl, ?_⟩
        intro j a hj
        simp only
        have hne : i ≠ j := by
          intro hij
          subst hij
          rw [hi] at hj
          simp at hj
        rw [List.getElem?_set_ne hne]
        exact hj

/-- One iteration of the loop of lines 317-324 leaves `fuFP` alone and keeps
every occupied slot of `fuINT`. -/
theorem pushINTBody_keeps {c : Int} {i : Nat} {e e' : IssueSt}
    (h : pushINTBody c i e = some e') :
    e'.st.fuFP = e.st.fuFP ∧
    ∀ (j : Nat) (a : Ptr), e.st.fuINT[j]? = some (some a) →
      e'.st.fuINT[j]? = some (some a) := by
  unfold pushINTBody at h
  split at h
  · exact absurd h (by simp)
  · simp only [Option.some.injEq] at h
    subst h
    exact ⟨rfl, fun _ _ hj => hj⟩
  · rename_i hrd
    obtain ⟨-, hi⟩ := rd_eq_some hrd
    split at h
    · simp only [Option.some.injEq] at h
      subst h
      exact ⟨rfl, fun _ _ hj => hj⟩
    · split at h
      · exact absurd h (by simp)
      · simp only [Option.some.injEq] at h
        subst h
        refine ⟨rfl, ?_⟩
        intro j a hj
        simp only
        have hne : i ≠ j := by
          intro hij
          subst hij
          rw [hi] at hj
          simp at hj
        rw [List.getElem?_set_ne hne]
        exact hj

/-! ## Facts about `runTomasulo` -/

theorem is_simulation_done_iff (sim_insn : Int) (s : State) :
    is_simulation_done sim_insn s = true ↔
      s.fetch_index = sim_insn ∧ s.instr_queue_size = 0 := by
  unfold is_simulation_done
  split <;> simp_all

/-- While the termination test fails the cycle loop is never left, whatever
the number of iterations allowed. -/
theorem cycleLoop_never (sim_num_insn : Int) (s : State)
    (h : is_simulation_done sim_num_insn s = false) :
    ∀ (fuel : Nat) (cycle : Int), cycleLoop sim_num_insn s fuel cycle = none := by
  intro fuel
  induction fuel with
  | zero => intro cycle; rfl
  | succ k ih =>
    intro cycle
    simp only [cycleLoop, h, Bool.false_eq_true, if_false]
    exact ih (cycle + 1)

/-! ## Claims about termination, the driver and dispatch -/

/-- C11 (the code departs from the claim): with `sim_insn = 8` on `retireDemo`
the test `is_simulation_done` returns true because `fetch_index = 8` and the
instruction queue is empty, although integer station 0 holds instruction 4,
floating-point station 0 holds instruction 1 and the bus holds instruction 0. -/
theorem is_simulation_done_ignores_pipeline :
    is_simulation_done 8 retireDemo = true ∧
    retireDemo.fetch_index = 8 ∧ retireDemo.instr_queue_size = 0 ∧
    retireDemo.reservINT[0]? = some (some 4) ∧
    retireDemo.reservFP[0]? = some (some 1) ∧
    retireDemo.commonDataBus = some 0 := by
  decide

/-- C12 (the code departs from the claim): started from the globals of
program start with a trace of one integer-compute instruction without source
dependencies and `sim_num_insn = 1`, `runTomasulo` does not return 8: whatever
number of loop iterations is allowed, the loop has not been left, because
nothing ever fetches and `fetch_index` stays 0. -/
theorem runTomasulo_single_insn_never_returns (fuel regs : Nat) :
    runTomasulo fuel [mkInsn 0 ICOMP_OP none none none 0 0 0] 1 (programStart regs)
      = none := by
  unfold runTomasulo
  apply cycleLoop_never
  rfl

/-- C13 (the code departs from the claim): for every non-empty trace, with
`sim_num_insn` the length of the trace, `runTomasulo` started from the globals
of program start never leaves its cycle loop, whatever number of iterations is
allowed. -/
theorem runTomasulo_nonempty_trace_never_returns (fuel regs : Nat)
    (x : instruction_t) (rest : List instruction_t) :
    runTomasulo fuel (x :: rest) ((x :: rest).length : Nat) (programStart regs)
      = none := by
  unfold runTomasulo
  apply cycleLoop_never
  cases hd : is_simulation_done (((x :: rest).length : Nat) : Int)
      (runTomasulo_init (programStart regs)) with
  | false => rfl
  | true =>
    have h := ((is_simulation_done_iff _ _).mp hd).1
    simp only [runTomasulo_init, programStart, List.length_cons] at h
    omega

/-- C14 (the code departs from the claim): on `dispatchDemo` the head of the
instruction queue is the integer computation 0 and integer station 0 is free,
yet `dispatch_To_issue` returns the state unchanged: the instruction is still
at the head of the queue, `instr_queue_size` is still 1, no integer station
holds it, its `tom_dispatch_cycle` is not stamped, and no map-table entry
references it. -/
theorem dispatch_To_issue_does_nothing :
    dispatchDemo.instr_queue[0]? = some (some 0) ∧
    dispatchDemo.heap[0]? = some (mkInsn 0 ICOMP_OP none none none 0 0 0) ∧
    IS_ICOMP ICOMP_OP = true ∧ USES_INT_FU ICOMP_OP = true ∧
    dispatchDemo.reservINT[0]? = some none ∧
    dispatch_To_issue 1 dispatchDemo = some dispatchDemo ∧
    dispatchDemo.instr_queue_size = 1 ∧
    dispatchDemo.reservINT = [none, none, none, none, none] ∧
    dispatchDemo.map_table = [none, none, none, none] := by
  decide

/-- C19: empty-trace result.  With `sim_num_insn = 0`, `fetch_index = 0` and an
empty instruction queue, `runTomasulo` on the empty trace has not returned
before its first loop iteration and returns 2 as soon as one iteration is
allowed: the result is the cycle counter after its increment. -/
theorem runTomasulo_empty_trace (s : State)
    (hfetch : s.fetch_index = 0) (hqueue : s.instr_queue_size = 0) :
    runTomasulo 0 [] 0 s = none ∧ ∀ fuel : Nat, runTomasulo (fuel + 1) [] 0 s = some 2 := by
  refine ⟨rfl, ?_⟩
  intro fuel
  have hdone : is_simulation_done 0 (runTomasulo_init s) = true :=
    (is_simulation_done_iff _ _).mpr ⟨hfetch, hqueue⟩
  simp only [runTomasulo, cycleLoop, hdone, if_true]
  rfl

theorem runTomasulo_empty_trace_witness :
    runTomasulo 0 [] 0 (programStart 4) = none ∧
    ∀ fuel : Nat, runTomasulo (fuel + 1) [] 0 (programStart 4) = some 2 :=
  runTomasulo_empty_trace (programStart 4) (by decide) (by decide)

/-! ## Further claims about the stage operations -/

/-- C15 (the code departs from the claim): on the all-empty pipeline
`execute_To_CDB` and `issue_To_execute` have no defined result, because they
read `fuFP[0]->tom_execute_cycle` and `reservFP[0]->tom_issue_cycle` through
`NULL`; `execute_To_CDB` has none at cycle 9 on `execDemo`, where all four
units are occupied, the bus is empty and no unit has a completed bus-writing
instruction, because line 231 reads through the absent candidates;
`CDB_To_retire` has none on `busOnlyDemo`, where the bus is occupied and
`reservFP[0]` is empty; and `issue_To_execute` has none on `fullIssueDemo`,
where every slot it reads is occupied, because the loop over the five integer
stations reads `reservFP[3]`. -/
theorem stage_operations_read_unguarded :
    execute_To_CDB 1 emptyPipeline = none ∧
    issue_To_execute 1 emptyPipeline = none ∧
    execDemo.fuINT = [some 0, some 1, some 2] ∧ execDemo.fuFP = [some 3] ∧
    execute_To_CDB 9 execDemo = none ∧
    CDB_To_retire 2 busOnlyDemo = none ∧
    fullIssueDemo.reservINT = [some 0, some 1, some 2, some 3, some 4] ∧
    fullIssueDemo.reservFP = [some 5, some 6, some 7] ∧
    issue_To_execute 5 fullIssueDemo = none := by
  decide

/-- C16 (the code departs from the claim): on `issueDemo` every functional
unit is empty, so no instruction occupies two units; after `issue_To_execute
5` instruction 7 occupies all three integer units. -/
theorem issue_To_execute_fills_every_free_unit :
    issueDemo.fuINT = [none, none, none] ∧ issueDemo.fuFP = [none] ∧
    issue_To_execute 5 issueDemo = some issueDemoAfter ∧
    issueDemoAfter.fuINT[0]? = some (some 7) ∧
    issueDemoAfter.fuINT[1]? = some (some 7) ∧
    issueDemoAfter.fuINT[2]? = some (some 7) := by
  decide

/-- C17 (the code departs from the claim): on `reissueDemo`,
`issue_To_execute 5` moves instruction 5 from `reservFP[0]` into integer unit
2 with `tom_execute_cycle = 5`, leaving the floating-point unit free; it does
not clear `reservFP[0]`.  `issue_To_execute 6` on the resulting state places
instruction 5 into the floating-point unit as well and changes its
`tom_execute_cycle` to 6. -/
theorem issue_To_execute_issues_again :
    reissueDemo.reservFP[0]? = some (some 5) ∧
    reissueDemo.fuINT[2]? = some none ∧
    issue_To_execute 5 reissueDemo = some reissueDemoAfter ∧
    reissueDemoAfter.fuINT[2]? = some (some 5) ∧
    reissueDemoAfter.heap[5]? = some (mkInsn 5 FCOMP_OP none none none 5 5 0) ∧
    reissueDemoAfter.reservFP[0]? = some (some 5) ∧
    reissueDemoAfter.fuFP[0]? = some none ∧
    issue_To_execute 6 reissueDemoAfter = some reissueDemoAgain ∧
    reissueDemoAgain.fuFP[0]? = some (some 5) ∧
    reissueDemoAgain.fuINT[2]? = some (some 5) ∧
    reissueDemoAgain.heap[5]? = some (mkInsn 5 FCOMP_OP none none none 5 6 0) := by
  decide

/-- C18: issue never evicts an executing instruction.  Whenever
`issue_To_execute` completes, every integer and floating-point functional-unit
slot that held an instruction before the call holds the same instruction
afterwards; only slots that were empty can change. -/
theorem issue_To_execute_keeps_occupied (current_cycle : Int) (s s' : State)
    (hrun : issue_To_execute current_cycle s = some s') :
    (∀ (i : Nat) (a : Ptr), s.fuINT[i]? = some (some a) →
      s'.fuINT[i]? = some (some a)) ∧
    (∀ (i : Nat) (a : Ptr), s.fuFP[i]? = some (some a) →
      s'.fuFP[i]? = some (some a)) := by
  unfold issue_To_execute at hrun
  split at hrun
  · exact absurd hrun (by simp)
  rename_i e1 he1
  split at hrun
  · exact absurd hrun (by simp)
  rename_i e2 he2
  split at hrun
  · exact absurd hrun (by simp)
  rename_i e3 he3
  split at hrun
  · exact absurd hrun (by simp)
  rename_i e4 he4
  simp only [Option.some.injEq] at hrun
  subst hrun
  have inv1 : e1.st = s :=
    forLoop_inv (issueFPBody current_cycle) (fun _ e => e.st = s) _ _ _ rfl
      (fun _ _ _ _ hst hb => (issueFPBody_st hb).trans hst) he1
  have inv2 : e2.st = s :=
    forLoop_inv (issueINTBody current_cycle) (fun _ e => e.st = s) _ _ _ inv1
      (fun _ _ _ _ hst hb => (issueINTBody_st hb).trans hst) he2
  have inv3 : e3.st.fuINT = s.fuINT ∧
      ∀ (j : Nat) (a : Ptr), s.fuFP[j]? = some (some a) →
        e3.st.fuFP[j]? = some (some a) := by
    refine forLoop_inv (pushFPBody current_cycle)
      (fun _ e => e.st.fuINT = s.fuINT ∧
        ∀ (j : Nat) (a : Ptr), s.fuFP[j]? = some (some a) →
          e.st.fuFP[j]? = some (some a)) _ _ _ ?_ ?_ he3
    · show e2.st.fuINT = s.fuINT ∧
        ∀ (j : Nat) (a : Ptr), s.fuFP[j]? = some (some a) →
          e2.st.fuFP[j]? = some (some a)
      rw [inv2]
      exact ⟨rfl, fun _ _ h => h⟩
    · intro k st st' _ hst hb
      obtain ⟨h1, h2⟩ := pushFPBody_keeps hb
      exact ⟨h1.trans hst.1, fun j a hj => h2 j a (hst.2 j a hj)⟩
  have inv4 : (∀ (j : Nat) (a : Ptr), s.fuINT[j]? = some (some a) →
        e4.st.fuINT[j]? = some (some a)) ∧
      ∀ (j : Nat) (a : Ptr), s.fuFP[j]? = some (some a) →
        e4.st.fuFP[j]? = some (some a) := by
    refine forLoop_inv (pushINTBody current_cycle)
      (fun _ e => (∀ (j : Nat) (a : Ptr), s.fuINT[j]? = some (some a) →
          e.st.fuINT[j]? = some (some a)) ∧
        ∀ (j : Nat) (a : Ptr), s.fuFP[j]? = some (some a) →
          e.st.fuFP[j]? = some (some a)) _ _ _ ?_ ?_ he4
    · refine ⟨?_, inv3.2⟩
      intro j a hj
      rw [inv3.1]
      exact hj
    · intro k st st' _ hst hb
      obtain ⟨h1, h2⟩ := pushINTBody_keeps hb
      refine ⟨fun j a hj => h2 j a (hst.1 j a hj), ?_⟩
      intro j a hj
      rw [h1]
      exact hst.2 j a hj
  exact inv4

theorem issue_To_execute_keeps_occupied_witness :
    reissueDemoAfter.fuINT[0]? = some (some 0) ∧
    reissueDemoAfter.fuINT[1]? = some (some 2) :=
  have h := issue_To_execute_keeps_occupied 5 reissueDemo reissueDemoAfter (by decide)
  ⟨h.1 0 0 (by decide), h.1 1 2 (by decide)⟩

end Tomasulo
